import Mathlib

/-!
Verification of the configuration, repository-discovery, todo and worklog
subsystems of the rhdh-skill command-line helper.

The Python sources are shallowly embedded:
* JSON documents (Python dicts produced by `json.loads`) become the inductive
  type `JSON`, with objects as ordered association lists — Python dicts
  preserve insertion order and never hold duplicate keys, the latter expressed
  by the `NodupKeys` hypothesis where it matters.
* Text lines become `Line := List Char` (Lean strings are `List Char` backed,
  and `String.data` converts literals).
* Filesystem and process-environment access becomes an explicit oracle record.
-/

/-- JSON-compatible values: the data model of the configuration documents
(`ConfigDocument` in the spec) and of worklog records. Objects are ordered
association lists, mirroring insertion-ordered Python dicts. Numbers are
modelled as integers (no floating point is used by the subsystems under
study). -/
inductive JSON where
  | str (s : String)
  | num (n : Int)
  | bool (b : Bool)
  | null
  | arr (xs : List JSON)
  | obj (fields : List (String × JSON))
deriving Repr

/-- Python `d[k]` / `d.get(k)` on an insertion-ordered dict modelled as an
association list: the first binding of `k`, if any.  (A real Python dict has
at most one binding per key.) -/
def lookupKey : List (String × JSON) → String → Option JSON
  | [], _ => none
  | (k0, v0) :: t, k => if k0 = k then some v0 else lookupKey t k

/-- Python `d[k] = v` on a dict: if `k` is already bound its binding is
updated in place (keeping its position), otherwise `(k, v)` is appended. -/
def setKey : List (String × JSON) → String → JSON → List (String × JSON)
  | [], k, v => [(k, v)]
  | (k0, v0) :: t, k, v => if k0 = k then (k, v) :: t else (k0, v0) :: setKey t k v

/-- A dict has no duplicate keys (an invariant of every real Python dict). -/
def NodupKeys (l : List (String × JSON)) : Prop :=
  (l.map Prod.fst).Nodup

instance (l : List (String × JSON)) : Decidable (NodupKeys l) := by
  unfold NodupKeys; infer_instance

/-- Embedding of `deep_merge` from `src/skills/rhdh/rhdh/config.py`
(lines 199-215): `result = base.copy()`, then for each binding of `override`
in order, recursively merge when both sides hold dicts and otherwise assign
the override value.  The accumulating `result` dict is threaded through the
recursion over the remaining `override` items. -/
def deep_merge : List (String × JSON) → List (String × JSON) → List (String × JSON)
  | base, [] => base
  | base, (k, v) :: rest =>
    match lookupKey base k, v with
    | some (JSON.obj ru), JSON.obj ov =>
      deep_merge (setKey base k (JSON.obj (deep_merge ru ov))) rest
    | some (JSON.obj _), _ => deep_merge (setKey base k v) rest
    | some (JSON.str _), _ => deep_merge (setKey base k v) rest
    | some (JSON.num _), _ => deep_merge (setKey base k v) rest
    | some (JSON.bool _), _ => deep_merge (setKey base k v) rest
    | some JSON.null, _ => deep_merge (setKey base k v) rest
    | some (JSON.arr _), _ => deep_merge (setKey base k v) rest
    | none, _ => deep_merge (setKey base k v) rest
termination_by _ ov => sizeOf ov

example : deep_merge [("a", JSON.num 1)] [("a", JSON.num 2), ("b", JSON.num 3)]
    = [("a", JSON.num 2), ("b", JSON.num 3)] := by
  simp [deep_merge, lookupKey, setKey, List.find?]

/-- The value `deep_merge` assigns for one override binding: recursive merge
when both sides hold dicts, otherwise the override value. -/
def mergeVal : Option JSON → JSON → JSON
  | some (JSON.obj ru), JSON.obj ov => JSON.obj (deep_merge ru ov)
  | _, v => v

theorem mergeVal_none (v : JSON) : mergeVal none v = v := by
  cases v <;> rfl

theorem deep_merge_cons (base : List (String × JSON)) (k0 : String) (v0 : JSON)
    (rest : List (String × JSON)) :
    deep_merge base ((k0, v0) :: rest) =
      deep_merge (setKey base k0 (mergeVal (lookupKey base k0) v0)) rest := by
  rcases h : lookupKey base k0 with _ | jv
  · cases v0 <;> simp [deep_merge, mergeVal, h]
  · cases jv <;> cases v0 <;> simp [deep_merge, mergeVal, h]

theorem lookupKey_eq_none {l : List (String × JSON)} {k : String}
    (h : k ∉ l.map Prod.fst) : lookupKey l k = none := by
  induction l with
  | nil => rfl
  | cons p t ih =>
    obtain ⟨k0, v0⟩ := p
    simp only [List.map_cons, List.mem_cons, not_or] at h
    simp [lookupKey, (Ne.symm h.1 : ¬ k0 = k), ih h.2]

theorem lookupKey_setKey_self (l : List (String × JSON)) (k : String) (v : JSON) :
    lookupKey (setKey l k v) k = some v := by
  induction l with
  | nil => simp [setKey, lookupKey]
  | cons p t ih =>
    obtain ⟨k0, v0⟩ := p
    by_cases hp : k0 = k
    · simp [setKey, lookupKey, hp]
    · simp [setKey, lookupKey, hp, ih]

theorem lookupKey_setKey_ne (l : List (String × JSON)) {k k' : String} (v : JSON)
    (h : k' ≠ k) : lookupKey (setKey l k v) k' = lookupKey l k' := by
  induction l with
  | nil => simp [setKey, lookupKey, Ne.symm h]
  | cons p t ih =>
    obtain ⟨k0, v0⟩ := p
    by_cases hp : k0 = k
    · simp [setKey, lookupKey, hp, Ne.symm h]
    · by_cases hp' : k0 = k'
      · simp [setKey, lookupKey, hp, hp', h]
      · simp [setKey, lookupKey, hp, hp', ih]

theorem mem_keys_setKey {l : List (String × JSON)} {k a : String} {v : JSON}
    (h : a ∈ (setKey l k v).map Prod.fst) : a ∈ l.map Prod.fst ∨ a = k := by
  induction l with
  | nil => simpa [setKey] using h
  | cons p t ih =>
    obtain ⟨k0, v0⟩ := p
    by_cases hp : k0 = k
    · simp only [setKey, if_pos hp] at h
      rcases (by simpa using h) with h | h
      · right; exact h
      · left; simp [h]
    · simp only [setKey, if_neg hp] at h
      rcases (by simpa using h) with h | h
      · left; simp [h]
      · rcases ih (by simpa using h) with h | h
        · left; simp [h]
        · right; exact h

theorem nodupKeys_setKey {l : List (String × JSON)} (k : String) (v : JSON)
    (hl : NodupKeys l) : NodupKeys (setKey l k v) := by
  induction l with
  | nil => simp [NodupKeys, setKey]
  | cons p t ih =>
    obtain ⟨k0, v0⟩ := p
    unfold NodupKeys at hl
    simp only [List.map_cons, List.nodup_cons] at hl
    by_cases hp : k0 = k
    · unfold NodupKeys
      simp only [setKey, if_pos hp, List.map_cons, List.nodup_cons]
      exact ⟨hp ▸ hl.1, hl.2⟩
    · unfold NodupKeys
      simp only [setKey, if_neg hp, List.map_cons, List.nodup_cons]
      refine ⟨fun hmem => ?_, ih hl.2⟩
      rcases mem_keys_setKey hmem with h | h
      · exact hl.1 h
      · exact hp h

theorem setKey_absent {l : List (String × JSON)} {k : String} (v : JSON)
    (h : k ∉ l.map Prod.fst) : setKey l k v = l ++ [(k, v)] := by
  induction l with
  | nil => rfl
  | cons p t ih =>
    obtain ⟨k0, v0⟩ := p
    simp only [List.map_cons, List.mem_cons, not_or] at h
    simp [setKey, (Ne.symm h.1 : ¬ k0 = k), ih h.2]

theorem deep_merge_disjoint (P : List (String × JSON)) :
    ∀ base : List (String × JSON), NodupKeys P →
      (∀ a ∈ P.map Prod.fst, a ∉ base.map Prod.fst) →
      deep_merge base P = base ++ P := by
  induction P with
  | nil => intro base _ _; simp [deep_merge]
  | cons p rest ih =>
    intro base hnd hdis
    obtain ⟨k, v⟩ := p
    unfold NodupKeys at hnd
    simp only [List.map_cons, List.nodup_cons] at hnd
    have hkb : k ∉ base.map Prod.fst := hdis k (by simp)
    rw [deep_merge_cons, lookupKey_eq_none hkb, mergeVal_none, setKey_absent v hkb,
      ih (base ++ [(k, v)]) hnd.2 ?_]
    · simp
    · intro a ha
      simp only [List.map_append, List.mem_append] at *
      refine fun hcon => ?_
      rcases hcon with hcon | hcon
      · exact hdis a (by simp [ha]) hcon
      · simp only [List.map_cons, List.map_nil, List.mem_singleton] at hcon
        exact hnd.1 (hcon ▸ ha)

theorem deep_merge_lookup (P : List (String × JSON)) :
    ∀ base : List (String × JSON), NodupKeys P → ∀ k : String,
      lookupKey (deep_merge base P) k =
        match lookupKey base k, lookupKey P k with
        | some (JSON.obj bu), some (JSON.obj pu) => some (JSON.obj (deep_merge bu pu))
        | _, some pv => some pv
        | bv, none => bv := by
  induction P with
  | nil =>
    intro base _ k
    rcases hb : lookupKey base k with _ | bv
    · simp [deep_merge, lookupKey, hb]
    · cases bv <;> simp [deep_merge, lookupKey, hb]
  | cons p rest ih =>
    intro base hnd k
    obtain ⟨k0, v0⟩ := p
    unfold NodupKeys at hnd
    simp only [List.map_cons, List.nodup_cons] at hnd
    rw [deep_merge_cons, ih _ hnd.2 k]
    by_cases hk : k0 = k
    · subst hk
      rw [lookupKey_eq_none (l := rest) hnd.1, lookupKey_setKey_self]
      rcases hb : lookupKey base k0 with _ | bv
      · cases v0 <;> simp [mergeVal, lookupKey]
      · cases bv <;> cases v0 <;> simp [mergeVal, lookupKey]
    · rw [lookupKey_setKey_ne _ _ (fun hc => hk hc.symm)]
      simp [lookupKey, hk]

/-- C1: the configuration deep merge satisfies the merge law — for all JSON
mappings `U` and `P` (`P` duplicate-key-free, as every Python dict is),
`merge(U, {}) == U`, `merge({}, P) == P`, and at every key `merge(U, P)`
holds `P`'s value wherever `P` defines the key (nested mappings merged
recursively, non-mapping values — lists included — replaced wholesale) and
`U`'s value elsewhere.  The per-key clause applies at every nesting depth
since it holds for all argument pairs, including the nested dicts. -/
theorem deep_merge_law (U P : List (String × JSON)) (hP : NodupKeys P) :
    deep_merge U [] = U ∧
    deep_merge [] P = P ∧
    ∀ k : String, lookupKey (deep_merge U P) k =
      match lookupKey U k, lookupKey P k with
      | some (JSON.obj uu), some (JSON.obj pu) => some (JSON.obj (deep_merge uu pu))
      | _, some pv => some pv
      | uv, none => uv := by
  refine ⟨by simp [deep_merge], ?_, fun k => deep_merge_lookup P U hP k⟩
  simpa using deep_merge_disjoint P [] hP (by simp)

/-- Witness for C1 at concrete documents: `P = {"a": {"y": 3}, "b": 4}` is
duplicate-key-free and merging `U = {"a": {"x": 1}, "c": 5}` with it merges
the nested dicts under `"a"`. -/
theorem deep_merge_law_witness :
    NodupKeys [("a", JSON.obj [("y", JSON.num 3)]), ("b", JSON.num 4)] ∧
    lookupKey
        (deep_merge [("a", JSON.obj [("x", JSON.num 1)]), ("c", JSON.num 5)]
          [("a", JSON.obj [("y", JSON.num 3)]), ("b", JSON.num 4)]) "a"
      = some (JSON.obj (deep_merge [("x", JSON.num 1)] [("y", JSON.num 3)])) := by
  refine ⟨by decide, ?_⟩
  have h := (deep_merge_law [("a", JSON.obj [("x", JSON.num 1)]), ("c", JSON.num 5)]
    [("a", JSON.obj [("y", JSON.num 3)]), ("b", JSON.num 4)] (by decide)).2.2 "a"
  rw [h]; rfl

/-! ## RepoLocator: `find_repo` (C2)

Embedding of `find_repo` from `src/skills/rhdh/rhdh/config.py` (lines
294-342); the `src/rhdh_plugin/config.py` variant (lines 34-87) differs only
in which configuration document backs the lookup, which is abstracted here as
the `reposConfig` oracle (merged config for the layered variant, user config
for the other).  Paths are modelled as component lists (`Path.parent` is
`dropLast`, `/` appends a component); directory existence, symlink
resolution, the process environment and the config lookup are oracles in a
`RepoWorld`, since they read on-disk state. -/

/-- Filesystem / environment oracle consulted by `find_repo`. -/
structure RepoWorld where
  getenv : String → Option String
  isDir : List String → Bool
  resolve : List String → List String
  reposConfig : String → Option String
  skillRoot : List String
  strToPath : String → List String

/-- The `key_map` table of `find_repo`: repository directory name to config
key, defaulting to the name itself. -/
def repoKeyMap (repo_name : String) : String :=
  if repo_name = "rhdh-plugin-export-overlays" then "overlay"
  else if repo_name = "rhdh-local" then "local"
  else if repo_name = "rhdh-dynamic-plugin-factory" then "factory"
  else repo_name

/-- Embedding of `find_repo(repo_name, env_var)`: four sources in order —
environment variable, configured `repos.<key>` path, `skillRoot/../repo/name`,
`skillRoot/../../repo/name` — each accepted only when its candidate is an
existing directory (`Path.is_dir`), in which case the resolved
(symlink-free) path is returned.  Falsy (unset or empty) env / config values
skip their step, as does a candidate that is not a directory. -/
def find_repo (w : RepoWorld) (repo_name env_var : String) : Option (List String) :=
  let step4 :=
    let parent_repo_path := w.skillRoot.dropLast.dropLast ++ ["repo", repo_name]
    if w.isDir parent_repo_path then some (w.resolve parent_repo_path) else none
  let step3 :=
    let skill_repo_path := w.skillRoot.dropLast ++ ["repo", repo_name]
    if w.isDir skill_repo_path then some (w.resolve skill_repo_path) else step4
  let step2 :=
    match w.reposConfig (repoKeyMap repo_name) with
    | some config_path =>
      if config_path ≠ "" then
        let p := w.strToPath config_path
        if w.isDir p then some (w.resolve p) else step3
      else step3
    | none => step3
  match w.getenv env_var with
  | some env_value =>
    if env_value ≠ "" then
      let p := w.strToPath env_value
      if w.isDir p then some (w.resolve p) else step2
    else step2
  | none => step2

/-- The candidate paths of the four sources, in precedence order: a source
contributes a candidate exactly when it is set (env var / config value
present and non-empty; the two install-root offsets are always set). -/
def find_repo_candidates (w : RepoWorld) (repo_name env_var : String) : List (List String) :=
  (match w.getenv env_var with
   | some env_value => if env_value ≠ "" then [w.strToPath env_value] else []
   | none => []) ++
  (match w.reposConfig (repoKeyMap repo_name) with
   | some config_path => if config_path ≠ "" then [w.strToPath config_path] else []
   | none => []) ++
  [w.skillRoot.dropLast ++ ["repo", repo_name],
   w.skillRoot.dropLast.dropLast ++ ["repo", repo_name]]

/-- C2: repository resolution returns the resolved candidate of the earliest
of the four sources (env var, config, `installRoot/../repo/<name>`,
`installRoot/../../repo/<name>`) whose candidate exists as a directory; a
source whose candidate is set but is not an existing directory is skipped
(resolution falls through), and when no source yields an existing directory
the result is `none`, not an error. -/
theorem find_repo_first_existing (w : RepoWorld) (repo_name env_var : String) :
    find_repo w repo_name env_var =
      ((find_repo_candidates w repo_name env_var).find? w.isDir).map w.resolve := by
  unfold find_repo find_repo_candidates
  rcases hge : w.getenv env_var with _ | ev
  · rcases hc : w.reposConfig (repoKeyMap repo_name) with _ | cv
    · by_cases h3 : w.isDir (w.skillRoot.dropLast ++ ["repo", repo_name]) <;>
        by_cases h4 : w.isDir (w.skillRoot.dropLast.dropLast ++ ["repo", repo_name]) <;>
        simp [h3, h4, List.find?]
    · by_cases hcv : cv = "" <;>
        by_cases h2 : w.isDir (w.strToPath cv) <;>
        by_cases h3 : w.isDir (w.skillRoot.dropLast ++ ["repo", repo_name]) <;>
        by_cases h4 : w.isDir (w.skillRoot.dropLast.dropLast ++ ["repo", repo_name]) <;>
        simp [hcv, h2, h3, h4, List.find?]
  · rcases hc : w.reposConfig (repoKeyMap repo_name) with _ | cv
    · by_cases hev : ev = "" <;>
        by_cases h1 : w.isDir (w.strToPath ev) <;>
        by_cases h3 : w.isDir (w.skillRoot.dropLast ++ ["repo", repo_name]) <;>
        by_cases h4 : w.isDir (w.skillRoot.dropLast.dropLast ++ ["repo", repo_name]) <;>
        simp [hev, h1, h3, h4, List.find?]
    · by_cases hev : ev = "" <;>
        by_cases h1 : w.isDir (w.strToPath ev) <;>
        by_cases hcv : cv = "" <;>
        by_cases h2 : w.isDir (w.strToPath cv) <;>
        by_cases h3 : w.isDir (w.skillRoot.dropLast ++ ["repo", repo_name]) <;>
        by_cases h4 : w.isDir (w.skillRoot.dropLast.dropLast ++ ["repo", repo_name]) <;>
        simp [hev, h1, hcv, h2, h3, h4, List.find?]

/-! ## TodoStore: `slugify` (C3)

Embedding of `slugify` from `src/rhdh_plugin/todo.py` (lines 60-71).  Titles
are `List Char`; `str.lower()` is `Char.toLower` per character,
`re.sub(r"[^a-z0-9]+", "-", s)` collapses each maximal run of
non-`[a-z0-9]` characters into a single hyphen, `strip("-")` removes leading
and trailing hyphens, and over-long slugs are cut to 50 characters and then
to the part before the last hyphen (`slug[:50].rsplit("-", 1)[0]`). -/

/-- Lines and other Python strings, as character lists. -/
abbrev Line := List Char

/-- Character-list contents of a string literal. -/
def strL (s : String) : Line := s.data

/-- Membership in the regex class `[a-z0-9]`. -/
def isLowerAlnum (c : Char) : Bool :=
  ('a' ≤ c && c ≤ 'z') || ('0' ≤ c && c ≤ '9')

/-- Model of `re.sub(r"[^a-z0-9]+", "-", s)`: `inRun` records whether the
previous character was part of a non-alphanumeric run (whose replacement
hyphen has already been emitted). -/
def subRunsAux (inRun : Bool) : Line → Line
  | [] => []
  | c :: cs =>
    if isLowerAlnum c then c :: subRunsAux false cs
    else if inRun then subRunsAux true cs
    else '-' :: subRunsAux true cs

/-- Python `s.strip("-")`: drop leading and trailing hyphens. -/
def stripHyphens (l : Line) : Line :=
  ((l.dropWhile (fun c => c = '-')).reverse.dropWhile (fun c => c = '-')).reverse

/-- Python `s.rsplit("-", 1)[0]`: everything before the last hyphen, or the
whole string when it has no hyphen. -/
def rsplitLast (l : Line) : Line :=
  if '-' ∈ l then ((l.reverse.dropWhile (fun c => ¬ c = '-')).drop 1).reverse
  else l

/-- Embedding of `slugify(title)`. -/
def slugify (title : Line) : Line :=
  let slug := title.map Char.toLower
  let slug := subRunsAux false slug
  let slug := stripHyphens slug
  if slug.length > 50 then rsplitLast (slug.take 50) else slug

example : slugify (strL "Check license") = strL "check-license" := by decide
example : slugify (strL "  Weird --- Title!! ") = strL "weird-title" := by decide
example : slugify (strL "") = strL "" := by decide
example :
    slugify (strL "aaaaaaaaa bbbbbbbbb ccccccccc ddddddddd eeeeeeeee fff")
      = strL "aaaaaaaaa-bbbbbbbbb-ccccccccc-ddddddddd-eeeeeeeee" := by decide

/-- Characters allowed in a slug: `[a-z0-9-]`. -/
def okChar (c : Char) : Bool := isLowerAlnum c || c = '-'

theorem subRunsAux_ok {b : Bool} {l : Line} {c : Char}
    (h : c ∈ subRunsAux b l) : okChar c = true := by
  induction l generalizing b with
  | nil => simp [subRunsAux] at h
  | cons x xs ih =>
    by_cases hx : isLowerAlnum x
    · rcases (by simpa [subRunsAux, hx] using h) with h | h
      · simp [okChar, h ▸ hx]
      · exact ih h
    · by_cases hb : b
      · exact ih (by simpa [subRunsAux, hx, hb] using h)
      · rcases (by simpa [subRunsAux, hx, hb] using h) with h | h
        · simp [okChar, h]
        · exact ih h

theorem isLowerAlnum_ne_hyphen {c : Char} (h : isLowerAlnum c = true) : ¬ c = '-' := by
  intro hc
  subst hc
  exact absurd h (by decide)

theorem subRunsAux_true_head {l : Line} {c : Char}
    (h : (subRunsAux true l).head? = some c) : isLowerAlnum c = true := by
  induction l with
  | nil => simp [subRunsAux] at h
  | cons x xs ih =>
    by_cases hx : isLowerAlnum x
    · have : x = c := by simpa [subRunsAux, hx] using h
      exact this ▸ hx
    · exact ih (by simpa [subRunsAux, hx] using h)

/-- No two adjacent hyphens. -/
def noAdj : Line → Bool
  | a :: b :: t => !(a == '-' && b == '-') && noAdj (b :: t)
  | _ => true

theorem noAdj_of_cons {a : Char} {l : Line} (h : noAdj (a :: l) = true) : noAdj l = true := by
  cases l with
  | nil => rfl
  | cons b t =>
    simp only [noAdj, Bool.and_eq_true] at h
    exact h.2

theorem noAdj_pair {x b : Char} {t : Line} (h : noAdj (x :: b :: t) = true) :
    ¬(x = '-' ∧ b = '-') := by
  intro hc
  rcases hc with ⟨h1, h2⟩
  subst h1
  subst h2
  simp [noAdj] at h

theorem noAdj_cons {a : Char} {l : Line}
    (hh : ∀ y, l.head? = some y → ¬(a = '-' ∧ y = '-')) (hl : noAdj l = true) :
    noAdj (a :: l) = true := by
  cases l with
  | nil => rfl
  | cons b t =>
    have := hh b rfl
    simp only [noAdj, Bool.and_eq_true, Bool.not_eq_true']
    refine ⟨?_, hl⟩
    by_cases hab : a = '-' ∧ b = '-'
    · exact absurd hab this
    · simp only [Bool.and_eq_false_iff]
      rcases not_and_or.mp hab with h | h
      · left; simpa using h
      · right; simpa using h

theorem subRunsAux_noAdj (l : Line) : ∀ b, noAdj (subRunsAux b l) = true := by
  induction l with
  | nil => intro b; rfl
  | cons x xs ih =>
    intro b
    by_cases hx : isLowerAlnum x
    · simp only [subRunsAux, if_pos hx]
      refine noAdj_cons (fun y _ hc => ?_) (ih false)
      exact isLowerAlnum_ne_hyphen hx hc.1
    · by_cases hb : b
      · simpa [subRunsAux, hx, hb] using ih true
      · simp only [subRunsAux, if_neg hx, if_neg hb]
        refine noAdj_cons (fun y hy hc => ?_) (ih true)
        exact isLowerAlnum_ne_hyphen (subRunsAux_true_head hy) hc.2

theorem head?_dropWhile {p : Char → Bool} {l : Line} {c : Char}
    (h : (l.dropWhile p).head? = some c) : p c = false := by
  induction l with
  | nil => simp [List.dropWhile] at h
  | cons x xs ih =>
    by_cases hx : p x
    · exact ih (by simpa [List.dropWhile, hx] using h)
    · have : x = c := by simpa [List.dropWhile, hx] using h
      subst this
      simpa using hx

theorem noAdj_dropWhile {p : Char → Bool} {l : Line} (h : noAdj l = true) :
    noAdj (l.dropWhile p) = true := by
  induction l with
  | nil => exact h
  | cons x xs ih =>
    by_cases hx : p x
    · simpa [List.dropWhile, hx] using ih (noAdj_of_cons h)
    · simpa [List.dropWhile, hx] using h

theorem noAdj_drop {l : Line} (h : noAdj l = true) : ∀ n, noAdj (l.drop n) = true := by
  induction l with
  | nil => intro n; simp [noAdj]
  | cons x xs ih =>
    intro n
    cases n with
    | zero => exact h
    | succ m => exact ih (noAdj_of_cons h) m

theorem head?_take {l : Line} {n : Nat} {c : Char}
    (h : (l.take n).head? = some c) : l.head? = some c := by
  cases l with
  | nil => simp at h
  | cons x xs =>
    cases n with
    | zero => simp at h
    | succ m => simpa using h

theorem noAdj_take {l : Line} (h : noAdj l = true) : ∀ n, noAdj (l.take n) = true := by
  induction l with
  | nil => intro n; simp [noAdj]
  | cons x xs ih =>
    intro n
    cases n with
    | zero => rfl
    | succ m =>
      show noAdj (x :: xs.take m) = true
      refine noAdj_cons (fun y hy hc => ?_) (ih (noAdj_of_cons h) m)
      have hy' : xs.head? = some y := head?_take hy
      cases xs with
      | nil => simp at hy'
      | cons b t =>
        have hb : b = y := by simpa using hy'
        subst hb
        exact noAdj_pair h hc

theorem noAdj_append_singleton {xs : Line} {a : Char}
    (hx : noAdj xs = true) (hl : ∀ y, xs.getLast? = some y → ¬(y = '-' ∧ a = '-')) :
    noAdj (xs ++ [a]) = true := by
  induction xs with
  | nil => rfl
  | cons x t ih =>
    cases t with
    | nil =>
      simp only [List.cons_append, List.nil_append]
      refine noAdj_cons (fun y hy hc => ?_) rfl
      have : a = y := by simpa using hy
      exact hl x (by simp) ⟨hc.1, this ▸ hc.2⟩
    | cons b t' =>
      simp only [List.cons_append]
      refine noAdj_cons (fun y hy hc => ?_) ?_
      · have hb : b = y := by simpa using hy
        subst hb
        exact noAdj_pair hx hc
      · exact ih (noAdj_of_cons hx) (fun y hy => hl y (by simpa using hy))

theorem noAdj_reverse {l : Line} (h : noAdj l = true) : noAdj l.reverse = true := by
  induction l with
  | nil => rfl
  | cons x xs ih =>
    simp only [List.reverse_cons]
    refine noAdj_append_singleton (ih (noAdj_of_cons h)) (fun y hy hc => ?_)
    have hy' : xs.head? = some y := by simpa using hy
    cases xs with
    | nil => simp at hy'
    | cons b t =>
      have hb : b = y := by simpa using hy'
      subst hb
      exact noAdj_pair h ⟨hc.2, hc.1⟩

theorem mem_of_mem_dropWhile {p : Char → Bool} {l : Line} {c : Char}
    (h : c ∈ l.dropWhile p) : c ∈ l := by
  induction l with
  | nil => simp [List.dropWhile] at h
  | cons x xs ih =>
    by_cases hx : p x
    · exact List.mem_cons_of_mem x (ih (by simpa [List.dropWhile, hx] using h))
    · simpa [List.dropWhile, hx] using h

theorem dropWhile_eq_drop (p : Char → Bool) (l : Line) :
    ∃ k, l.dropWhile p = l.drop k := by
  induction l with
  | nil => exact ⟨0, rfl⟩
  | cons x xs ih =>
    by_cases hx : p x
    · rcases ih with ⟨k, hk⟩
      exact ⟨k + 1, by simpa [List.dropWhile, hx] using hk⟩
    · exact ⟨0, by simp [List.dropWhile, hx]⟩

theorem head?_mem {l : Line} {c : Char} (h : l.head? = some c) : c ∈ l := by
  cases l with
  | nil => simp at h
  | cons x xs => simp [show x = c by simpa using h]

theorem mem_of_mem_take' {l : Line} {n : Nat} {c : Char} (h : c ∈ l.take n) : c ∈ l := by
  induction l generalizing n with
  | nil => simp at h
  | cons x xs ih =>
    cases n with
    | zero => simp at h
    | succ m =>
      rcases (by simpa using h) with h | h
      · simp [h]
      · exact List.mem_cons_of_mem x (ih h)

theorem getLast?_drop {l : Line} {k : Nat} {c : Char}
    (h : (l.drop k).getLast? = some c) : l.getLast? = some c := by
  rw [← List.head?_reverse] at h ⊢
  rw [List.reverse_drop] at h
  exact head?_take h

theorem stripHyphens_eq_take (l : Line) :
    ∃ m, stripHyphens l = (l.dropWhile (fun c => c = '-')).take m := by
  obtain ⟨k, hk⟩ :=
    dropWhile_eq_drop (fun c => c = '-') (l.dropWhile (fun c => c = '-')).reverse
  refine ⟨(l.dropWhile (fun c => c = '-')).length - k, ?_⟩
  unfold stripHyphens
  rw [hk, List.reverse_drop, List.reverse_reverse, List.length_reverse]

theorem hyphen_dropWhile {m : Line} (h : '-' ∈ m) :
    ∃ u, m.dropWhile (fun c => ¬ c = '-') = '-' :: u := by
  induction m with
  | nil => simp at h
  | cons x xs ih =>
    by_cases hx : x = '-'
    · exact ⟨xs, by simp [List.dropWhile, hx]⟩
    · rcases (by simpa using h) with h | h
      · exact absurd h.symm hx
      · rcases ih h with ⟨u, hu⟩
        exact ⟨u, by simpa [List.dropWhile, hx] using hu⟩

theorem length_dropWhile_le (p : Char → Bool) (l : Line) :
    (l.dropWhile p).length ≤ l.length := by
  obtain ⟨k, hk⟩ := dropWhile_eq_drop p l
  rw [hk, List.length_drop]
  omega

/-- C3: for every title, `slugify` yields a string over `[a-z0-9-]` only
(hence all lowercase), with no leading and no trailing hyphen, of length at
most 50. -/
theorem slugify_shape (t : Line) :
    (∀ c ∈ slugify t, okChar c = true) ∧
    (∀ c, (slugify t).head? = some c → ¬ c = '-') ∧
    (∀ c, (slugify t).getLast? = some c → ¬ c = '-') ∧
    (slugify t).length ≤ 50 := by
  unfold slugify
  set x := subRunsAux false (t.map Char.toLower) with hxdef
  set a := x.dropWhile (fun c => c = '-') with hadef
  set s := stripHyphens x with hsdef
  obtain ⟨m0, hm0⟩ := stripHyphens_eq_take x
  have hsub : ∀ c ∈ s, okChar c = true := by
    intro c hc
    rw [hsdef, hm0] at hc
    exact subRunsAux_ok (mem_of_mem_dropWhile (mem_of_mem_take' hc))
  have hnoadj : noAdj s = true := by
    rw [hsdef]
    unfold stripHyphens
    exact noAdj_reverse (noAdj_dropWhile (noAdj_reverse (noAdj_dropWhile
      (subRunsAux_noAdj _ false))))
  have hhead : ∀ c, s.head? = some c → ¬ c = '-' := by
    intro c hc
    rw [hsdef, hm0] at hc
    have := head?_dropWhile (head?_take hc)
    simpa using this
  have hlast : ∀ c, s.getLast? = some c → ¬ c = '-' := by
    intro c hc
    rw [hsdef] at hc
    unfold stripHyphens at hc
    rw [List.getLast?_reverse] at hc
    have := head?_dropWhile hc
    simpa using this
  by_cases hlen : s.length > 50
  · rw [if_pos hlen]
    unfold rsplitLast
    by_cases hmem : '-' ∈ s.take 50
    · rw [if_pos hmem]
      obtain ⟨u, hu⟩ := hyphen_dropWhile (by simpa using hmem : '-' ∈ (s.take 50).reverse)
      obtain ⟨k, hk⟩ := dropWhile_eq_drop (fun c => ¬ c = '-') (s.take 50).reverse
      have hdwAdj : noAdj ('-' :: u) = true := by
        rw [← hu, hk]
        exact noAdj_drop (noAdj_reverse (noAdj_take hnoadj 50)) k
      rw [hu]
      simp only [List.drop_one, List.tail_cons]
      refine ⟨?_, ?_, ?_, ?_⟩
      · intro c hc
        rw [List.mem_reverse] at hc
        have hmem2 : c ∈ '-' :: u := List.mem_cons_of_mem _ hc
        rw [← hu] at hmem2
        exact hsub c (mem_of_mem_take' ((List.mem_reverse).mp (mem_of_mem_dropWhile hmem2)))
      · intro c hc
        rw [List.head?_reverse] at hc
        have hgl : ('-' :: u).getLast? = some c := by
          cases u with
          | nil => simp at hc
          | cons b t => simpa [List.getLast?_cons_cons] using hc
        rw [← hu, hk] at hgl
        have h2 := getLast?_drop hgl
        rw [List.getLast?_reverse] at h2
        exact hhead c (head?_take h2)
      · intro c hc
        rw [List.getLast?_reverse] at hc
        intro hc'
        subst hc'
        cases u with
        | nil => simp at hc
        | cons b t =>
          have hb : b = '-' := by simpa using hc
          exact noAdj_pair hdwAdj ⟨rfl, hb⟩
      · have h1 : ('-' :: u).length ≤ (s.take 50).reverse.length := by
          rw [← hu]
          exact length_dropWhile_le _ _
        simp only [List.length_reverse, List.length_cons, List.length_take] at h1 ⊢
        omega
    · rw [if_neg hmem]
      refine ⟨?_, ?_, ?_, ?_⟩
      · intro c hc
        exact hsub c (mem_of_mem_take' hc)
      · intro c hc
        exact hhead c (head?_take hc)
      · intro c hc hc'
        subst hc'
        refine hmem ?_
        rw [← List.head?_reverse] at hc
        exact (List.mem_reverse).mp (head?_mem hc)
      · simp only [List.length_take]
        omega
  · rw [if_neg hlen]
    refine ⟨hsub, hhead, hlast, ?_⟩
    rw [← hxdef, ← hsdef]
    omega

/-! ## TodoStore: section parser and mutators (C4, C7, C9, C10)

Embedding of `src/rhdh_plugin/todo.py`.  A document is a list of lines
(`content.split("\n")`); lines therefore contain no newline character.
`_parse_todos` is the state machine over lines (comment flag, open section,
separator / header transitions); the mutators `add_todo`, `mark_done` and
`add_note` are modelled as pure functions from the current document lines
(what `TODO_FILE.read_text()` returns, split) and the current date string
(what `datetime.now(...).strftime("%Y-%m-%d")` returns) to the rewritten
lines plus the returned `TodoItem`. -/

/-- Python `str.isspace` members relevant to `str.strip()` (ASCII whitespace). -/
def isPySpace (c : Char) : Bool :=
  c = ' ' || c = '\t' || c = '\n' || c = '\r' || c = '\x0b' || c = '\x0c'

/-- Python `s.strip()`: remove leading and trailing whitespace. -/
def pyStripL (l : Line) : Line :=
  ((l.dropWhile isPySpace).reverse.dropWhile isPySpace).reverse

/-- Whether `pat` is a leading part of `l`. -/
def startsWithL : Line → Line → Bool
  | [], _ => true
  | _ :: _, [] => false
  | p :: ps, c :: cs => p == c && startsWithL ps cs

/-- Python `pat in line` (contiguous substring occurrence). -/
def hasSubstrL (pat : Line) : Line → Bool
  | [] => startsWithL pat []
  | c :: cs => startsWithL pat (c :: cs) || hasSubstrL pat cs

/-- Python `str.replace(pat, rep)` for non-empty `pat`, with explicit fuel so
that the definition is structural (each step consumes at least one input
character, so `l.length` fuel always suffices; `replaceAllL` below supplies
it). -/
def replaceAllF (pat rep : Line) : Nat → Line → Line
  | _, [] => []
  | 0, l => l
  | fuel + 1, c :: cs =>
    if pat ≠ [] ∧ startsWithL pat (c :: cs) = true then
      rep ++ replaceAllF pat rep fuel (List.drop (pat.length - 1) cs)
    else
      c :: replaceAllF pat rep fuel cs

/-- Python `str.replace(pat, rep)` for non-empty `pat`: replace every
(leftmost, non-overlapping) occurrence. -/
def replaceAllL (pat rep : Line) (l : Line) : Line := replaceAllF pat rep l.length l

/-- The regex `TODO_HEADER_PATTERN = ^## \[([ x])\] (.+)$` as a matcher:
returns the checked flag and the (unstripped) title text. -/
def matchHeader : Line → Option (Bool × Line)
  | '#' :: '#' :: ' ' :: '[' :: m :: ']' :: ' ' :: rest =>
    if (m == ' ' || m == 'x') && !rest.isEmpty then some (m == 'x', rest) else none
  | _ => none

/-- A parsed raw section: stripped title, done flag, start line, end line. -/
abbrev RawTodo := Line × Bool × Nat × Nat

/-- Append the still-open section (if any), closed at line `n`. -/
def emitCur : Option (Line × Bool × Nat) → Nat → List RawTodo → List RawTodo
  | some (t, d, s), n, tail => (t, d, s, n) :: tail
  | none, _, tail => tail

/-- The line loop of `_parse_todos` (todo.py lines 93-131): `n` is the index
of the next line, `inC` the `in_comment` flag, `cur` the open section. -/
def parseTodosAux : List Line → Nat → Bool → Option (Line × Bool × Nat) → List RawTodo
  | [], n, _, cur => emitCur cur n []
  | line :: rest, n, inC, cur =>
    let inC1 := inC || hasSubstrL (strL "<!--") line
    if hasSubstrL (strL "-->") line then
      parseTodosAux rest (n + 1) false cur
    else if inC1 = true then
      parseTodosAux rest (n + 1) true cur
    else if pyStripL line = strL "---" ∧ cur.isSome then
      emitCur cur n (parseTodosAux rest (n + 1) inC1 none)
    else
      match matchHeader line with
      | some (d, title) =>
        emitCur cur n (parseTodosAux rest (n + 1) inC1 (some (pyStripL title, d, n)))
      | none => parseTodosAux rest (n + 1) inC1 cur

/-- A `TodoItem` (todo.py lines 45-57). -/
structure TodoItem where
  slug : Line
  title : Line
  done : Bool
  line_start : Nat
  line_end : Nat
  created : Option Line
  completed : Option Line
  context : Option Line
  raw_content : Line
deriving Repr, DecidableEq

/-- Python `"\n".join(lines)`. -/
def joinLines : List Line → Line
  | [] => []
  | [l] => l
  | l :: rest => l ++ '\n' :: joinLines rest

/-- One line of the metadata scan of `_make_todo_item` (todo.py lines
145-151): an `if / elif / elif` chain, later matches overwriting earlier
ones. -/
def extractStep (acc : Option Line × Option Line × Option Line) (line : Line) :
    Option Line × Option Line × Option Line :=
  if startsWithL (strL "**Created:**") line then
    (some (pyStripL (replaceAllL (strL "**Created:**") [] line)), acc.2.1, acc.2.2)
  else if startsWithL (strL "**Completed:**") line then
    (acc.1, some (pyStripL (replaceAllL (strL "**Completed:**") [] line)), acc.2.2)
  else if startsWithL (strL "**Context:**") line then
    (acc.1, acc.2.1, some (pyStripL (replaceAllL (strL "**Context:**") [] line)))
  else acc

/-- The metadata scan of `_make_todo_item` over a whole section. -/
def extractMeta (sec : List Line) : Option Line × Option Line × Option Line :=
  sec.foldl extractStep (none, none, none)

/-- Embedding of `_make_todo_item` (todo.py lines 135-163). -/
def make_todo_item (lines : List Line) : RawTodo → TodoItem
  | (title, d, s, e) =>
    let sec := (lines.drop s).take (e - s)
    let meta := extractMeta sec
    { slug := slugify title, title := title, done := d, line_start := s, line_end := e,
      created := meta.1, completed := meta.2.1, context := meta.2.2,
      raw_content := joinLines sec }

/-- Embedding of `_parse_todos` (todo.py lines 82-132). -/
def parse_todos (lines : List Line) : List TodoItem :=
  (parseTodosAux lines 0 false none).map (make_todo_item lines)

/-- Embedding of `list_todos` (todo.py lines 166-182) on given document lines. -/
def list_todos (lines : List Line) (include_done : Bool) : List TodoItem :=
  if include_done then parse_todos lines
  else (parse_todos lines).filter (fun td => !td.done)

/-- Embedding of `get_todo` (todo.py lines 185-206): exact slug match first,
then first slug having the query as a leading part. -/
def get_todo (lines : List Line) (slug : Line) : Option TodoItem :=
  let todos := parse_todos lines
  match todos.find? (fun td => td.slug == slug) with
  | some td => some td
  | none => todos.find? (fun td => startsWithL slug td.slug)

/-- Python `list.insert(i, x)`. -/
def pyInsert (l : List Line) (i : Nat) (x : Line) : List Line :=
  l.take i ++ x :: l.drop i

/-- Python `for i in range(a, b): if p(lines[i]): ...` returning the first
hit (used with `b ≤ len(lines)` by the callers, via `min`). -/
def findIdxFrom (p : Line → Bool) (lines : List Line) (a b : Nat) : Option Nat :=
  (List.range' a (b - a)).find? (fun i => p (lines.getD i []))

/-- The fresh section block built by `add_todo` (todo.py lines 226-242). -/
def newSection (today : Line) (title : Line) (context : Option Line) : List Line :=
  [strL "## [ ] " ++ title, strL "**Created:** " ++ today] ++
  (match context with
   | some c => [strL "**Context:** " ++ c]
   | none => []) ++
  [[], [], strL "### Notes", strL "- " ++ today ++ strL ": Created", [], strL "---", []]

/-- Embedding of `add_todo` (todo.py lines 209-273): insert the new section
after the first `---` separator; failing that, before the first non-blank
line not starting with `#`; failing that, at end of document.  Returns the
rewritten lines and the returned `TodoItem`. -/
def add_todo (today : Line) (lines : List Line) (title : Line) (context : Option Line) :
    List Line × TodoItem :=
  let new_section := newSection today title context
  let insert_at :=
    match lines.findIdx? (fun line => pyStripL line = strL "---") with
    | some i => i + 1
    | none =>
      match lines.findIdx? (fun line => !(pyStripL line).isEmpty && !startsWithL (strL "#") line) with
      | some i => i
      | none => lines.length
  let new_lines := lines.take insert_at ++ [[]] ++ new_section ++ lines.drop insert_at
  (new_lines,
   { slug := slugify title, title := title, done := false, line_start := insert_at + 1,
     line_end := insert_at + 1 + new_section.length, created := some today,
     completed := none, context := context, raw_content := [] })

/-- Embedding of `mark_done` (todo.py lines 276-312): resolve the slug; an
already-done item is returned unchanged without touching the file; otherwise
rewrite the header checkbox, insert a `**Completed:**` line after the first
`**Created:**` line of the section (if one exists), and return the item with
`done = True` and `completed = today`. -/
def mark_done (today : Line) (lines : List Line) (slug : Line) :
    List Line × Option TodoItem :=
  match get_todo lines slug with
  | none => (lines, none)
  | some td =>
    if td.done then (lines, some td)
    else
      let lines1 := lines.set td.line_start
        (replaceAllL (strL "## [ ]") (strL "## [x]") (lines.getD td.line_start []))
      let lines2 :=
        match findIdxFrom (fun l => startsWithL (strL "**Created:**") l) lines1
            td.line_start (min td.line_end lines1.length) with
        | some i => pyInsert lines1 (i + 1) (strL "**Completed:** " ++ today)
        | none => lines1
      (lines2, some { td with done := true, completed := some today })

/-- Embedding of `add_note` (todo.py lines 315-358): insert the dated note
line after `### Notes` if the section has one, otherwise insert a fresh
`### Notes` block before the section's `---`; if the section has neither,
nothing is inserted.  The written lines and the re-fetched item are returned. -/
def add_note (today : Line) (lines : List Line) (slug : Line) (note : Line) :
    List Line × Option TodoItem :=
  match get_todo lines slug with
  | none => (lines, none)
  | some td =>
    let note_line := strL "- " ++ today ++ strL ": " ++ note
    let b := min td.line_end lines.length
    let new_lines :=
      match findIdxFrom (fun l => pyStripL l = strL "### Notes") lines td.line_start b with
      | some i => pyInsert lines (i + 1) note_line
      | none =>
        match findIdxFrom (fun l => pyStripL l = strL "---") lines td.line_start b with
        | some i => pyInsert (pyInsert (pyInsert lines i []) i note_line) i (strL "### Notes")
        | none => lines
    (new_lines, get_todo new_lines slug)

/-- The lines of `DEFAULT_TODO_CONTENT` (todo.py lines 23-42), as produced by
`content.split("\n")` (note the final empty line from the trailing newline). -/
def defaultTodoLines : List Line :=
  [strL "# RHDH Plugin Todos",
   strL "",
   strL "Track uncertainties, follow-ups, and action items from plugin work.",
   strL "",
   strL "---",
   strL "",
   strL "<!-- TEMPLATE (do not remove)",
   strL "## [ ] <title>",
   strL "**Created:** <date>",
   strL "**Context:** <optional workspace or PR context>",
   strL "",
   strL "<description of what needs to be done>",
   strL "",
   strL "### Notes",
   strL "- <date>: <update>",
   strL "",
   strL "---",
   strL "-->",
   strL ""]

example : parse_todos defaultTodoLines = [] := by decide

/-! Helper lemmas about the textual primitives, used by the TodoStore
theorems. -/

/-- Date strings produced by `strftime("%Y-%m-%d")`: non-empty, digits and
hyphens only.  The C4 theorem takes the two "today" values as arbitrary
strings of this shape. -/
def dateLike (d : Line) : Bool :=
  !d.isEmpty && d.all (fun c => c.isDigit || c = '-')

theorem startsWithL_mem {pat l : Line} (h : startsWithL pat l = true) :
    ∀ c ∈ pat, c ∈ l := by
  induction pat generalizing l with
  | nil => intro c hc; simp at hc
  | cons p ps ih =>
    cases l with
    | nil => simp [startsWithL] at h
    | cons x xs =>
      simp only [startsWithL, Bool.and_eq_true, beq_iff_eq] at h
      intro c hc
      rcases (by simpa using hc) with hc | hc
      · simp [hc ▸ h.1]
      · exact List.mem_cons_of_mem x (ih h.2 c hc)

theorem hasSubstrL_mem {pat l : Line} (h : hasSubstrL pat l = true) :
    ∀ c ∈ pat, c ∈ l := by
  induction l with
  | nil => exact fun c hc => absurd hc (by
      intro hc'
      cases pat with
      | nil => simp at hc'
      | cons p ps => simp [hasSubstrL, startsWithL] at h)
  | cons x xs ih =>
    simp only [hasSubstrL, Bool.or_eq_true] at h
    rcases h with h | h
    · exact startsWithL_mem h
    · exact fun c hc => List.mem_cons_of_mem x (ih h c hc)

theorem hasSubstrL_eq_false_of_not_mem {pat l : Line} {c : Char}
    (hc : c ∈ pat) (h : c ∉ l) : hasSubstrL pat l = false := by
  by_contra hcon
  exact h (hasSubstrL_mem (by simpa using hcon) c hc)

theorem hasSubstrL_append_left {h0 : Char} {pt a l : Line} (hh : h0 ∉ a) :
    hasSubstrL (h0 :: pt) (a ++ l) = hasSubstrL (h0 :: pt) l := by
  induction a with
  | nil => rfl
  | cons x xs ih =>
    simp only [List.mem_cons, not_or] at hh
    simp only [List.cons_append, hasSubstrL, startsWithL, List.append_eq]
    rw [ih hh.2]
    have : (h0 == x) = false := by simpa using hh.1
    simp [this]

theorem dateLike_mem {d : Line} {c : Char} (hd : dateLike d = true) (hc : c ∈ d) :
    (c.isDigit || c = '-') = true := by
  simp only [dateLike, Bool.and_eq_true, List.all_eq_true] at hd
  simpa using hd.2 c hc

theorem dropWhile_eq_self_of {p : Char → Bool} {l : Line}
    (h : ∀ c, l.head? = some c → p c = false) : l.dropWhile p = l := by
  cases l with
  | nil => rfl
  | cons x xs => simp [List.dropWhile, h x rfl]

theorem stripRight_eq_take (p : Char → Bool) (l : Line) :
    ∃ m, (l.reverse.dropWhile p).reverse = l.take m := by
  obtain ⟨k, hk⟩ := dropWhile_eq_drop p l.reverse
  refine ⟨l.length - k, ?_⟩
  rw [hk, List.reverse_drop, List.reverse_reverse, List.length_reverse]

theorem pyStripL_clean {l : Line} (h : ∀ c ∈ l, isPySpace c = false) : pyStripL l = l := by
  unfold pyStripL
  rw [dropWhile_eq_self_of (fun c hc => h c (head?_mem hc)),
    dropWhile_eq_self_of (fun c hc => h c ((List.mem_reverse).mp (head?_mem hc))),
    List.reverse_reverse]

theorem pyStripL_space_cons {d : Line} (h : ∀ c ∈ d, isPySpace c = false) :
    pyStripL (' ' :: d) = d := by
  unfold pyStripL
  have h1 : List.dropWhile isPySpace (' ' :: d) = d := by
    simp only [List.dropWhile, show isPySpace ' ' = true from rfl]
    exact dropWhile_eq_self_of (fun c hc => h c (head?_mem hc))
  rw [h1, dropWhile_eq_self_of (fun c hc => h c ((List.mem_reverse).mp (head?_mem hc))),
    List.reverse_reverse]

theorem pyStripL_eq_take {c : Char} {r : Line} (hc : isPySpace c = false) :
    ∃ m, pyStripL (c :: r) = (c :: r).take m := by
  unfold pyStripL
  have h1 : List.dropWhile isPySpace (c :: r) = c :: r :=
    dropWhile_eq_self_of (fun x hx => by
      have hx' : c = x := by simpa using hx
      simpa [← hx'] using hc)
  rw [h1]
  exact stripRight_eq_take _ _

theorem pyStripL_ne_sep₁ {c : Char} {r : Line} (hc : isPySpace c = false)
    (hne : ¬ c = '-') : ¬ pyStripL (c :: r) = strL "---" := by
  intro h
  obtain ⟨m, hm⟩ := pyStripL_eq_take (r := r) hc
  rw [hm] at h
  cases m with
  | zero => simp [strL] at h
  | succ m' =>
    have : c = '-' := by
      have := congrArg List.head? h
      simpa [strL] using this
    exact hne this

theorem pyStripL_ne_sep₂ {c1 c2 : Char} {r : Line} (hc : isPySpace c1 = false)
    (hne : ¬ c2 = '-') : ¬ pyStripL (c1 :: c2 :: r) = strL "---" := by
  intro h
  obtain ⟨m, hm⟩ := pyStripL_eq_take (r := c2 :: r) hc
  rw [hm] at h
  cases m with
  | zero => simp [strL] at h
  | succ m' =>
    cases m' with
    | zero => simp [strL] at h
    | succ m'' =>
      have : c2 = '-' := by
        have := congrArg (fun l => l.getD 1 ' ') h
        simpa [strL] using this
      exact hne this

theorem startsWithL_self_append (p l : Line) : startsWithL p (p ++ l) = true := by
  induction p with
  | nil => rfl
  | cons x xs ih => simp [startsWithL, ih]

theorem startsWithL_exists_append {p l : Line} (h : startsWithL p l = true) :
    ∃ r, l = p ++ r := by
  induction p generalizing l with
  | nil => exact ⟨l, rfl⟩
  | cons x xs ih =>
    cases l with
    | nil => simp [startsWithL] at h
    | cons y ys =>
      simp only [startsWithL, Bool.and_eq_true, beq_iff_eq] at h
      obtain ⟨r, hr⟩ := ih h.2
      exact ⟨r, by simp [h.1, hr]⟩

theorem replaceAllF_eq_replaceAllL (pat rep : Line) :
    ∀ fuel, ∀ l : Line, l.length ≤ fuel → replaceAllF pat rep fuel l = replaceAllL pat rep l := by
  intro fuel
  induction fuel using Nat.strong_induction_on with
  | _ fuel ih =>
    intro l hl
    cases l with
    | nil =>
      cases fuel with
      | zero => rfl
      | succ f => rfl
    | cons c cs =>
      cases fuel with
      | zero => simp at hl
      | succ f =>
        have hcs : cs.length ≤ f := by simpa using hl
        rw [replaceAllF]
        show _ = replaceAllF pat rep (cs.length + 1) (c :: cs)
        rw [replaceAllF]
        by_cases hc : pat ≠ [] ∧ startsWithL pat (c :: cs) = true
        · rw [if_pos hc, if_pos hc]
          have hd : (List.drop (pat.length - 1) cs).length ≤ cs.length := by
            rw [List.length_drop]; omega
          rw [ih f (by omega) _ (le_trans hd hcs), ih cs.length (by omega) _ hd]
        · rw [if_neg hc, if_neg hc]
          rw [ih f (by omega) _ hcs, ih cs.length (by omega) _ (le_refl _)]

theorem replaceAllL_cons_pos {pat rep : Line} {c : Char} {cs : Line}
    (h : pat ≠ [] ∧ startsWithL pat (c :: cs) = true) :
    replaceAllL pat rep (c :: cs) =
      rep ++ replaceAllL pat rep (List.drop (pat.length - 1) cs) := by
  show replaceAllF pat rep (cs.length + 1) (c :: cs) = _
  rw [replaceAllF, if_pos h,
    replaceAllF_eq_replaceAllL pat rep cs.length _ (by rw [List.length_drop]; omega)]

theorem replaceAllL_cons_neg {pat rep : Line} {c : Char} {cs : Line}
    (h : ¬ (pat ≠ [] ∧ startsWithL pat (c :: cs) = true)) :
    replaceAllL pat rep (c :: cs) = c :: replaceAllL pat rep cs := by
  show replaceAllF pat rep (cs.length + 1) (c :: cs) = _
  rw [replaceAllF, if_neg h, replaceAllF_eq_replaceAllL pat rep cs.length _ (by omega)]

theorem replaceAllL_no_occ {pat rep l : Line} (_hp : pat ≠ [])
    (h : hasSubstrL pat l = false) : replaceAllL pat rep l = l := by
  induction l with
  | nil => rfl
  | cons c cs ih =>
    simp only [hasSubstrL, Bool.or_eq_false_iff] at h
    rw [replaceAllL_cons_neg (by simp [h.1]), ih h.2]

theorem header_replace {t : Line} (h : hasSubstrL (strL "## [ ]") t = false) :
    replaceAllL (strL "## [ ]") (strL "## [x]") (strL "## [ ] " ++ t)
      = strL "## [x] " ++ t := by
  have h1 : strL "## [ ] " ++ t = '#' :: ('#' :: ' ' :: '[' :: ' ' :: ']' :: ' ' :: t) := rfl
  rw [h1, replaceAllL_cons_pos (by refine ⟨by simp [strL], ?_⟩; rfl)]
  have h2 : List.drop ((strL "## [ ]").length - 1) ('#' :: ' ' :: '[' :: ' ' :: ']' :: ' ' :: t)
      = ' ' :: t := rfl
  rw [h2, replaceAllL_cons_neg (by simp [startsWithL, strL]),
    replaceAllL_no_occ (by simp [strL]) h]
  rfl

theorem marker_extract (pat : Line) (hp : pat ≠ []) (d : Line)
    (hsp : startsWithL pat (' ' :: d) = false)
    (hnom : hasSubstrL pat d = false)
    (hws : ∀ c ∈ d, isPySpace c = false) :
    pyStripL (replaceAllL pat [] (pat ++ ' ' :: d)) = d := by
  cases pat with
  | nil => exact absurd rfl hp
  | cons p ps =>
    have key := @replaceAllL_cons_pos (p :: ps) [] p (ps ++ ' ' :: d)
      ⟨hp, by simpa using startsWithL_self_append (p :: ps) (' ' :: d)⟩
    show pyStripL (replaceAllL (p :: ps) [] (p :: (ps ++ ' ' :: d))) = d
    rw [key]
    have h2 : List.drop ((p :: ps).length - 1) (ps ++ ' ' :: d) = ' ' :: d := by
      simp only [List.length_cons, Nat.add_sub_cancel]
      exact List.drop_left ps (' ' :: d)
    rw [h2, replaceAllL_cons_neg (by simp [hsp]), replaceAllL_no_occ hp hnom]
    simpa using pyStripL_space_cons hws

theorem matchHeader_unchecked {t : Line} (h : ¬ t = []) :
    matchHeader (strL "## [ ] " ++ t) = some (false, t) := by
  show matchHeader ('#' :: '#' :: ' ' :: '[' :: ' ' :: ']' :: ' ' :: t) = some (false, t)
  rw [matchHeader]
  simp [h]

theorem matchHeader_checked {t : Line} (h : ¬ t = []) :
    matchHeader (strL "## [x] " ++ t) = some (true, t) := by
  show matchHeader ('#' :: '#' :: ' ' :: '[' :: 'x' :: ']' :: ' ' :: t) = some (true, t)
  rw [matchHeader]
  simp [h]

theorem parse_step_skip {line : Line} {rest : List Line} {n : Nat} {inC : Bool}
    {cur : Option (Line × Bool × Nat)}
    (h1 : hasSubstrL (strL "-->") line = false)
    (h2 : (inC || hasSubstrL (strL "<!--") line) = false)
    (h3 : ¬ (pyStripL line = strL "---" ∧ cur.isSome = true))
    (h4 : matchHeader line = none) :
    parseTodosAux (line :: rest) n inC cur = parseTodosAux rest (n + 1) false cur := by
  rw [parseTodosAux]
  simp only [h1, h2, Bool.false_eq_true, if_false]
  rw [if_neg h3, h4]

theorem parse_step_sep {line : Line} {rest : List Line} {n : Nat} {inC : Bool}
    {c : Line × Bool × Nat}
    (h1 : hasSubstrL (strL "-->") line = false)
    (h2 : (inC || hasSubstrL (strL "<!--") line) = false)
    (h3 : pyStripL line = strL "---") :
    parseTodosAux (line :: rest) n inC (some c) =
      (c.1, c.2.1, c.2.2, n) :: parseTodosAux rest (n + 1) false none := by
  rw [parseTodosAux]
  simp only [h1, h2, Bool.false_eq_true, if_false]
  rw [if_pos (⟨h3, rfl⟩ : _ ∧ (some c).isSome = true)]
  rfl

theorem parse_step_hdr {line : Line} {rest : List Line} {n : Nat} {inC : Bool}
    {dn : Bool} {ti : Line}
    (h1 : hasSubstrL (strL "-->") line = false)
    (h2 : (inC || hasSubstrL (strL "<!--") line) = false)
    (h4 : matchHeader line = some (dn, ti)) :
    parseTodosAux (line :: rest) n inC none =
      parseTodosAux rest (n + 1) false (some (pyStripL ti, dn, n)) := by
  rw [parseTodosAux]
  simp only [h1, h2, Bool.false_eq_true, if_false]
  rw [if_neg (by simp), h4]
  rfl

theorem findIdxFrom_eq_none {p : Line → Bool} {lines : List Line} {a b : Nat}
    (h : ∀ i, a ≤ i → i < b → p (lines.getD i []) = false) :
    findIdxFrom p lines a b = none := by
  unfold findIdxFrom
  rw [List.find?_eq_none]
  intro i hi
  rw [List.mem_range'_1] at hi
  simp only [Bool.not_eq_true]
  exact h i hi.1 (by omega)

/-- One line's effect on the `in_comment` flag of `_parse_todos`: set on
`<!--`, cleared (with the line consumed) on `-->`. -/
def commentStep (inC : Bool) (line : Line) : Bool :=
  if hasSubstrL (strL "-->") line then false
  else inC || hasSubstrL (strL "<!--") line

/-- The parser's `in_comment` flag when line `i` is reached. -/
def inCommentBefore (doc : List Line) (i : Nat) : Bool :=
  (doc.take i).foldl commentStep false

/-- Line `i` is ignored entirely by the parser: it carries a `-->` marker
(consumed by the comment-close branch), or the flag is set when it is
reached, or it carries a `<!--` marker (which sets the flag before the line
is examined). -/
def lineIgnored (doc : List Line) (i : Nat) : Bool :=
  hasSubstrL (strL "-->") (doc.getD i []) || inCommentBefore doc i ||
    hasSubstrL (strL "<!--") (doc.getD i [])

theorem parseTodosAux_nil_of_ignored :
    ∀ (ls : List Line) (inC : Bool),
      (∀ j, j < ls.length → (matchHeader (ls.getD j [])).isSome = true →
        (hasSubstrL (strL "-->") (ls.getD j []) ||
         (ls.take j).foldl commentStep inC ||
         hasSubstrL (strL "<!--") (ls.getD j [])) = true) →
      ∀ n, parseTodosAux ls n inC none = [] := by
  intro ls
  induction ls with
  | nil => intro inC _ n; rfl
  | cons line rest ih =>
    intro inC h n
    have hrest : ∀ j, j < rest.length → (matchHeader (rest.getD j [])).isSome = true →
        (hasSubstrL (strL "-->") (rest.getD j []) ||
         (rest.take j).foldl commentStep (commentStep inC line) ||
         hasSubstrL (strL "<!--") (rest.getD j [])) = true := by
      intro j hj hm
      have := h (j + 1) (by simpa using Nat.succ_lt_succ hj) (by simpa using hm)
      simpa [List.take_succ_cons, commentStep] using this
    rw [parseTodosAux]
    by_cases h1 : hasSubstrL (strL "-->") line = true
    · have hstep : commentStep inC line = false := by simp [commentStep, h1]
      rw [if_pos h1]
      rw [hstep] at hrest
      exact ih false hrest (n + 1)
    · rw [if_neg h1]
      by_cases h2 : (inC || hasSubstrL (strL "<!--") line) = true
      · have hstep : commentStep inC line = true := by
          simp only [commentStep, if_neg h1]
          exact h2
        rw [if_pos h2]
        rw [hstep] at hrest
        exact ih true hrest (n + 1)
      · have hstep : commentStep inC line = false := by
          simp only [commentStep, if_neg h1]
          simpa using h2
        rw [if_neg h2]
        rw [if_neg (by simp : ¬ (pyStripL line = strL "---" ∧
          (none : Option (Line × Bool × Nat)).isSome = true))]
        rw [hstep] at hrest
        rcases hm : matchHeader line with _ | p
        · have hinC1 : (inC || hasSubstrL (strL "<!--") line) = false := by simpa using h2
          simp only [hinC1]
          exact ih false hrest (n + 1)
        · exfalso
          have h0 := h 0 (by simp) (by simp [hm])
          simp only [List.getD_cons_zero, List.take_zero, List.foldl_nil] at h0
          simp only [Bool.or_eq_true] at h0
          rcases h0 with (h0 | h0) | h0
          · exact h1 h0
          · simp [h0] at h2
          · simp [h0] at h2

/-- C7: the parser ignores every line while the `inComment` flag (toggled by
the comment-open / comment-close markers) is set, so a document whose
header-pattern lines are all ignored — in particular one whose only headers
lie inside comment blocks — parses to no `TodoItem` at all, and `list_todos`
returns the empty list with or without done items included.  The witness
instantiates this with the default template file. -/
theorem parse_todos_comment_blocks (doc : List Line)
    (h : ∀ i, i < doc.length → (matchHeader (doc.getD i [])).isSome = true →
        lineIgnored doc i = true) :
    parse_todos doc = [] ∧ list_todos doc true = [] ∧ list_todos doc false = [] := by
  have hp : parseTodosAux doc 0 false none = [] :=
    parseTodosAux_nil_of_ignored doc false (fun j hj hm => h j hj hm) 0
  refine ⟨?_, ?_, ?_⟩ <;> simp [parse_todos, list_todos, hp]

/-- Witness for C7: the default template's only header-pattern lines sit
inside its HTML comment block, and it parses to zero todos. -/
theorem parse_todos_comment_blocks_witness :
    (∀ i, i < defaultTodoLines.length →
        (matchHeader (defaultTodoLines.getD i [])).isSome = true →
        lineIgnored defaultTodoLines i = true) ∧
    (parse_todos defaultTodoLines = [] ∧ list_todos defaultTodoLines true = [] ∧
      list_todos defaultTodoLines false = []) :=
  ⟨by decide, parse_todos_comment_blocks defaultTodoLines (by decide)⟩

theorem getD_set_self {l : List Line} {i : Nat} {x : Line} (h : i < l.length) :
    (l.set i x).getD i [] = x := by
  induction l generalizing i with
  | nil => simp at h
  | cons a t ih =>
    cases i with
    | zero => rfl
    | succ j => simpa using ih (by simpa using h)

theorem getD_set_ne {l : List Line} {i j : Nat} {x : Line} (h : ¬ i = j) :
    (l.set i x).getD j [] = l.getD j [] := by
  induction l generalizing i j with
  | nil => simp
  | cons a t ih =>
    cases i with
    | zero =>
      cases j with
      | zero => exact absurd rfl h
      | succ j' => rfl
    | succ i' =>
      cases j with
      | zero => rfl
      | succ j' => simpa using ih (fun hc => h (by simp [hc]))

/-- C9 (implicit): when `add_note` resolves a slug to a section whose line
range contains neither a `### Notes` line nor a `---` separator line, the
note is silently dropped — the document is written back unchanged, yet the
call still returns the resolved `TodoItem`, with no failure signal. -/
theorem add_note_no_anchor (today : Line) (lines : List Line) (slug note : Line)
    (td : TodoItem) (hget : get_todo lines slug = some td)
    (hrange : ∀ i, td.line_start ≤ i → i < min td.line_end lines.length →
      ¬ pyStripL (lines.getD i []) = strL "### Notes" ∧
      ¬ pyStripL (lines.getD i []) = strL "---") :
    add_note today lines slug note = (lines, some td) := by
  unfold add_note
  rw [hget]
  dsimp only
  rw [findIdxFrom_eq_none (fun i h1 h2 => by simpa using (hrange i h1 h2).1)]
  dsimp only
  rw [findIdxFrom_eq_none (fun i h1 h2 => by simpa using (hrange i h1 h2).2)]
  dsimp only
  rw [hget]

/-- Witness for C9: a two-line document holding a single trailing section
with no `### Notes` line and no closing separator; `add_note` leaves it
byte-for-byte unchanged while returning the item. -/
theorem add_note_no_anchor_witness :
    get_todo [strL "## [ ] Task", strL "**Created:** 2024-01-01"] (strL "task") =
      some { slug := strL "task", title := strL "Task", done := false, line_start := 0,
             line_end := 2, created := some (strL "2024-01-01"), completed := none,
             context := none,
             raw_content := strL "## [ ] Task\n**Created:** 2024-01-01" } ∧
    add_note (strL "2024-02-02") [strL "## [ ] Task", strL "**Created:** 2024-01-01"]
        (strL "task") (strL "hello") =
      ([strL "## [ ] Task", strL "**Created:** 2024-01-01"],
       some { slug := strL "task", title := strL "Task", done := false, line_start := 0,
              line_end := 2, created := some (strL "2024-01-01"), completed := none,
              context := none,
              raw_content := strL "## [ ] Task\n**Created:** 2024-01-01" }) :=
  ⟨by decide,
   add_note_no_anchor (strL "2024-02-02") [strL "## [ ] Task", strL "**Created:** 2024-01-01"]
     (strL "task") (strL "hello")
     { slug := strL "task", title := strL "Task", done := false, line_start := 0,
       line_end := 2, created := some (strL "2024-01-01"), completed := none,
       context := none, raw_content := strL "## [ ] Task\n**Created:** 2024-01-01" }
     (by decide)
     (by
       intro i h1 h2
       have h2' : i < 2 := by simpa using h2
       interval_cases i <;> exact ⟨by decide, by decide⟩)⟩

/-- C10 (implicit): when `mark_done` resolves a slug to a not-yet-done
section whose line range contains no `**Created:**` line, it still flips the
header checkbox but inserts no `**Completed:**` line — the document gains
only the rewritten header, while the returned item nevertheless reports
`completed = today`, so the returned value and the persisted document
disagree about the completion date. -/
theorem mark_done_no_created (today : Line) (lines : List Line) (slug : Line)
    (td : TodoItem) (hget : get_todo lines slug = some td) (hdone : td.done = false)
    (hhdr : startsWithL (strL "## [ ] ") (lines.getD td.line_start []) = true)
    (hrange : ∀ i, td.line_start < i → i < min td.line_end lines.length →
      startsWithL (strL "**Created:**") (lines.getD i []) = false) :
    mark_done today lines slug =
      (lines.set td.line_start
        (replaceAllL (strL "## [ ]") (strL "## [x]") (lines.getD td.line_start [])),
       some { td with done := true, completed := some today }) := by
  unfold mark_done
  rw [hget]
  dsimp only
  rw [if_neg (by simp [hdone])]
  rw [findIdxFrom_eq_none ?hn]
  case hn =>
    intro i hi1 hi2
    rw [List.length_set] at hi2
    by_cases hie : i = td.line_start
    · subst hie
      have hlen : td.line_start < lines.length := lt_of_lt_of_le hi2 (Nat.min_le_right _ _)
      rw [getD_set_self hlen]
      obtain ⟨r, hr⟩ := startsWithL_exists_append hhdr
      rw [hr]
      rw [show strL "## [ ] " ++ r = '#' :: ('#' :: ' ' :: '[' :: ' ' :: ']' :: ' ' :: r) from rfl,
        replaceAllL_cons_pos ⟨by simp [strL], by rfl⟩]
      rfl
    · rw [getD_set_ne (fun hc => hie hc.symm)]
      exact hrange i (lt_of_le_of_ne hi1 (fun hc => hie hc.symm)) hi2

/-- Witness for C10: a one-line document whose only section has no
`**Created:**` line; `mark_done` flips the checkbox, writes no
`**Completed:**` line, yet reports `completed = "2024-02-02"`. -/
theorem mark_done_no_created_witness :
    get_todo [strL "## [ ] Task"] (strL "task") =
      some { slug := strL "task", title := strL "Task", done := false, line_start := 0,
             line_end := 1, created := none, completed := none, context := none,
             raw_content := strL "## [ ] Task" } ∧
    mark_done (strL "2024-02-02") [strL "## [ ] Task"] (strL "task") =
      ([strL "## [ ] Task"].set 0
        (replaceAllL (strL "## [ ]") (strL "## [x]") ([strL "## [ ] Task"].getD 0 [])),
       some { slug := strL "task", title := strL "Task", done := true, line_start := 0,
              line_end := 1, created := none, completed := some (strL "2024-02-02"),
              context := none, raw_content := strL "## [ ] Task" }) :=
  ⟨by decide,
   mark_done_no_created (strL "2024-02-02") [strL "## [ ] Task"] (strL "task")
     { slug := strL "task", title := strL "Task", done := false, line_start := 0,
       line_end := 1, created := none, completed := none, context := none,
       raw_content := strL "## [ ] Task" }
     (by decide) (by decide) (by decide)
     (by
       intro i h1 h2
       have h2' : i < 1 := by simpa using h2
       omega)⟩

theorem isDigit_not_space {c : Char} (h : c.isDigit = true) : isPySpace c = false := by
  by_contra hcon
  have hsp : isPySpace c = true := by simpa using hcon
  simp only [isPySpace, Bool.or_eq_true, decide_eq_true_eq, or_assoc] at hsp
  rcases hsp with h1 | h1 | h1 | h1 | h1 | h1 <;> subst h1 <;> exact absurd h (by decide)

theorem dateLike_facts {d : Line} (hd : dateLike d = true) :
    '>' ∉ d ∧ '<' ∉ d ∧ '*' ∉ d ∧ '#' ∉ d ∧ (∀ c ∈ d, isPySpace c = false) ∧ ¬ d = [] := by
  have hne : ¬ d = [] := by
    intro hc
    subst hc
    simp [dateLike] at hd
  refine ⟨?_, ?_, ?_, ?_, ?_, hne⟩
  · intro hm; exact absurd (dateLike_mem hd hm) (by decide)
  · intro hm; exact absurd (dateLike_mem hd hm) (by decide)
  · intro hm; exact absurd (dateLike_mem hd hm) (by decide)
  · intro hm; exact absurd (dateLike_mem hd hm) (by decide)
  · intro c hc
    have := dateLike_mem hd hc
    rcases (by simpa using this : c.isDigit = true ∨ c = '-') with h1 | h1
    · exact isDigit_not_space h1
    · subst h1; rfl

theorem no_markers_of_no_angle {l : Line} (h1 : '<' ∉ l) (h2 : '>' ∉ l) :
    hasSubstrL (strL "<!--") l = false ∧ hasSubstrL (strL "-->") l = false :=
  ⟨hasSubstrL_eq_false_of_not_mem (by decide) h1,
   hasSubstrL_eq_false_of_not_mem (by decide) h2⟩

theorem not_mem_append_parts {c : Char} {a b : Line} (h1 : c ∉ a) (h2 : c ∉ b) :
    c ∉ a ++ b := by
  intro hm
  rcases List.mem_append.mp hm with hm | hm
  · exact h1 hm
  · exact h2 hm

theorem extractStep_skip {acc : Option Line × Option Line × Option Line} {line : Line}
    (h1 : startsWithL (strL "**Created:**") line = false)
    (h2 : startsWithL (strL "**Completed:**") line = false)
    (h3 : startsWithL (strL "**Context:**") line = false) :
    extractStep acc line = acc := by
  simp [extractStep, h1, h2, h3]

theorem extractStep_created {acc : Option Line × Option Line × Option Line} {d : Line}
    (hd : ∀ c ∈ d, isPySpace c = false) (hstar : '*' ∉ d) :
    extractStep acc (strL "**Created:** " ++ d) = (some d, acc.2.1, acc.2.2) := by
  have hsw : startsWithL (strL "**Created:**") (strL "**Created:** " ++ d) = true := by
    show startsWithL (strL "**Created:**") (strL "**Created:**" ++ (' ' :: d)) = true
    exact startsWithL_self_append _ _
  rw [extractStep, if_pos hsw]
  have hval : pyStripL (replaceAllL (strL "**Created:**") []
      (strL "**Created:** " ++ d)) = d := by
    have := marker_extract (strL "**Created:**") (by decide) d rfl
      (hasSubstrL_eq_false_of_not_mem (by decide) hstar) hd
    simpa using this
  rw [hval]

theorem extractStep_completed {acc : Option Line × Option Line × Option Line} {d : Line}
    (hd : ∀ c ∈ d, isPySpace c = false) (hstar : '*' ∉ d) :
    extractStep acc (strL "**Completed:** " ++ d) = (acc.1, some d, acc.2.2) := by
  have hno : startsWithL (strL "**Created:**") (strL "**Completed:** " ++ d) = false := rfl
  have hsw : startsWithL (strL "**Completed:**") (strL "**Completed:** " ++ d) = true := by
    show startsWithL (strL "**Completed:**") (strL "**Completed:**" ++ (' ' :: d)) = true
    exact startsWithL_self_append _ _
  rw [extractStep, if_neg (by simp [hno]), if_pos hsw]
  have hval : pyStripL (replaceAllL (strL "**Completed:**") []
      (strL "**Completed:** " ++ d)) = d := by
    have := marker_extract (strL "**Completed:**") (by decide) d rfl
      (hasSubstrL_eq_false_of_not_mem (by decide) hstar) hd
    simpa using this
  rw [hval]

/-- The document produced by `add_todo(title, context=None)` on the default
template, with `d` the creation date: the new section sits right after the
preamble's closing rule. -/
def addedLines (d t : Line) : List Line :=
  [strL "# RHDH Plugin Todos",
   strL "",
   strL "Track uncertainties, follow-ups, and action items from plugin work.",
   strL "",
   strL "---",
   strL "",
   strL "## [ ] " ++ t,
   strL "**Created:** " ++ d,
   strL "",
   strL "",
   strL "### Notes",
   strL "- " ++ d ++ strL ": Created",
   strL "",
   strL "---",
   strL "",
   strL "",
   strL "<!-- TEMPLATE (do not remove)",
   strL "## [ ] <title>",
   strL "**Created:** <date>",
   strL "**Context:** <optional workspace or PR context>",
   strL "",
   strL "<description of what needs to be done>",
   strL "",
   strL "### Notes",
   strL "- <date>: <update>",
   strL "",
   strL "---",
   strL "-->",
   strL ""]

/-- `addedLines` after `mark_done` with completion date `d2`: checked header,
and a `**Completed:**` line immediately after the `**Created:**` line. -/
def doneLines (d d2 t : Line) : List Line :=
  [strL "# RHDH Plugin Todos",
   strL "",
   strL "Track uncertainties, follow-ups, and action items from plugin work.",
   strL "",
   strL "---",
   strL "",
   strL "## [x] " ++ t,
   strL "**Created:** " ++ d,
   strL "**Completed:** " ++ d2,
   strL "",
   strL "",
   strL "### Notes",
   strL "- " ++ d ++ strL ": Created",
   strL "",
   strL "---",
   strL "",
   strL "",
   strL "<!-- TEMPLATE (do not remove)",
   strL "## [ ] <title>",
   strL "**Created:** <date>",
   strL "**Context:** <optional workspace or PR context>",
   strL "",
   strL "<description of what needs to be done>",
   strL "",
   strL "### Notes",
   strL "- <date>: <update>",
   strL "",
   strL "---",
   strL "-->",
   strL ""]

theorem header_line_facts {t : Line} (htc1 : hasSubstrL (strL "<!--") t = false)
    (htc2 : hasSubstrL (strL "-->") t = false) :
    hasSubstrL (strL "<!--") (strL "## [ ] " ++ t) = false ∧
    hasSubstrL (strL "-->") (strL "## [ ] " ++ t) = false ∧
    hasSubstrL (strL "<!--") (strL "## [x] " ++ t) = false ∧
    hasSubstrL (strL "-->") (strL "## [x] " ++ t) = false := by
  refine ⟨?_, ?_, ?_, ?_⟩
  · show hasSubstrL ('<' :: strL "!--") (strL "## [ ] " ++ t) = false
    rw [hasSubstrL_append_left (by decide)]
    exact htc1
  · show hasSubstrL ('-' :: strL "->") (strL "## [ ] " ++ t) = false
    rw [hasSubstrL_append_left (by decide)]
    exact htc2
  · show hasSubstrL ('<' :: strL "!--") (strL "## [x] " ++ t) = false
    rw [hasSubstrL_append_left (by decide)]
    exact htc1
  · show hasSubstrL ('-' :: strL "->") (strL "## [x] " ++ t) = false
    rw [hasSubstrL_append_left (by decide)]
    exact htc2

theorem parse_addedLines {t d : Line} (ht0 : ¬ t = []) (hts : pyStripL t = t)
    (htc1 : hasSubstrL (strL "<!--") t = false)
    (htc2 : hasSubstrL (strL "-->") t = false)
    (hd : dateLike d = true) :
    parseTodosAux (addedLines d t) 0 false none = [(t, false, 6, 13)] := by
  obtain ⟨hdgt, hdlt, hdstar, hdhash, hdws, hdne⟩ := dateLike_facts hd
  obtain ⟨hh1, hh2, _, _⟩ := header_line_facts htc1 htc2
  have hlt1 : '<' ∉ strL "**Created:** " ++ d := not_mem_append_parts (by decide) hdlt
  have hgt1 : '>' ∉ strL "**Created:** " ++ d := not_mem_append_parts (by decide) hdgt
  have hcrm := no_markers_of_no_angle hlt1 hgt1
  have hlt2 : '<' ∉ strL "- " ++ d ++ strL ": Created" :=
    not_mem_append_parts (not_mem_append_parts (by decide) hdlt) (by decide)
  have hgt2 : '>' ∉ strL "- " ++ d ++ strL ": Created" :=
    not_mem_append_parts (not_mem_append_parts (by decide) hdgt) (by decide)
  have hnotem := no_markers_of_no_angle hlt2 hgt2
  unfold addedLines
  rw [parse_step_skip (by decide) (by decide) (by decide) (by decide)]
  rw [parse_step_skip (by decide) (by decide) (by decide) (by decide)]
  rw [parse_step_skip (by decide) (by decide) (by decide) (by decide)]
  rw [parse_step_skip (by decide) (by decide) (by decide) (by decide)]
  rw [parse_step_skip (by decide) (by decide) (by decide) (by decide)]
  rw [parse_step_skip (by decide) (by decide) (by decide) (by decide)]
  rw [parse_step_hdr hh2 (by simpa using hh1) (matchHeader_unchecked ht0)]
  rw [hts]
  rw [parse_step_skip hcrm.2 (by simpa using hcrm.1)
    (fun hc => pyStripL_ne_sep₁ (by decide) (by decide) hc.1) rfl]
  rw [parse_step_skip (by decide) (by decide) (fun hc => absurd hc.1 (by decide)) (by decide)]
  rw [parse_step_skip (by decide) (by decide) (fun hc => absurd hc.1 (by decide)) (by decide)]
  rw [parse_step_skip (by decide) (by decide) (fun hc => absurd hc.1 (by decide)) (by decide)]
  rw [parse_step_skip hnotem.2 (by simpa using hnotem.1)
    (fun hc => pyStripL_ne_sep₂ (by decide) (by decide) hc.1) rfl]
  rw [parse_step_skip (by decide) (by decide) (fun hc => absurd hc.1 (by decide)) (by decide)]
  rw [parse_step_sep (by decide) (by decide) (by decide)]
  have htail : parseTodosAux
      [strL "", strL "", strL "<!-- TEMPLATE (do not remove)", strL "## [ ] <title>",
       strL "**Created:** <date>", strL "**Context:** <optional workspace or PR context>",
       strL "", strL "<description of what needs to be done>", strL "", strL "### Notes",
       strL "- <date>: <update>", strL "", strL "---", strL "-->", strL ""]
      14 false none = [] := by decide
  rw [htail]

theorem parse_doneLines {t d d2 : Line} (ht0 : ¬ t = []) (hts : pyStripL t = t)
    (htc1 : hasSubstrL (strL "<!--") t = false)
    (htc2 : hasSubstrL (strL "-->") t = false)
    (hd : dateLike d = true) (hd2 : dateLike d2 = true) :
    parseTodosAux (doneLines d d2 t) 0 false none = [(t, true, 6, 14)] := by
  obtain ⟨hdgt, hdlt, hdstar, hdhash, hdws, hdne⟩ := dateLike_facts hd
  obtain ⟨hdgt2, hdlt2, hdstar2, hdhash2, hdws2, hdne2⟩ := dateLike_facts hd2
  obtain ⟨_, _, hh1, hh2⟩ := header_line_facts htc1 htc2
  have hlt1 : '<' ∉ strL "**Created:** " ++ d := not_mem_append_parts (by decide) hdlt
  have hgt1 : '>' ∉ strL "**Created:** " ++ d := not_mem_append_parts (by decide) hdgt
  have hcrm := no_markers_of_no_angle hlt1 hgt1
  have hlt3 : '<' ∉ strL "**Completed:** " ++ d2 := not_mem_append_parts (by decide) hdlt2
  have hgt3 : '>' ∉ strL "**Completed:** " ++ d2 := not_mem_append_parts (by decide) hdgt2
  have hcom := no_markers_of_no_angle hlt3 hgt3
  have hlt2 : '<' ∉ strL "- " ++ d ++ strL ": Created" :=
    not_mem_append_parts (not_mem_append_parts (by decide) hdlt) (by decide)
  have hgt2 : '>' ∉ strL "- " ++ d ++ strL ": Created" :=
    not_mem_append_parts (not_mem_append_parts (by decide) hdgt) (by decide)
  have hnotem := no_markers_of_no_angle hlt2 hgt2
  unfold doneLines
  rw [parse_step_skip (by decide) (by decide) (by decide) (by decide)]
  rw [parse_step_skip (by decide) (by decide) (by decide) (by decide)]
  rw [parse_step_skip (by decide) (by decide) (by decide) (by decide)]
  rw [parse_step_skip (by decide) (by decide) (by decide) (by decide)]
  rw [parse_step_skip (by decide) (by decide) (by decide) (by decide)]
  rw [parse_step_skip (by decide) (by decide) (by decide) (by decide)]
  rw [parse_step_hdr hh2 (by simpa using hh1) (matchHeader_checked ht0)]
  rw [hts]
  rw [parse_step_skip hcrm.2 (by simpa using hcrm.1)
    (fun hc => pyStripL_ne_sep₁ (by decide) (by decide) hc.1) rfl]
  rw [parse_step_skip hcom.2 (by simpa using hcom.1)
    (fun hc => pyStripL_ne_sep₁ (by decide) (by decide) hc.1) rfl]
  rw [parse_step_skip (by decide) (by decide) (fun hc => absurd hc.1 (by decide)) (by decide)]
  rw [parse_step_skip (by decide) (by decide) (fun hc => absurd hc.1 (by decide)) (by decide)]
  rw [parse_step_skip (by decide) (by decide) (fun hc => absurd hc.1 (by decide)) (by decide)]
  rw [parse_step_skip hnotem.2 (by simpa using hnotem.1)
    (fun hc => pyStripL_ne_sep₂ (by decide) (by decide) hc.1) rfl]
  rw [parse_step_skip (by decide) (by decide) (fun hc => absurd hc.1 (by decide)) (by decide)]
  rw [parse_step_sep (by decide) (by decide) (by decide)]
  have htail : parseTodosAux
      [strL "", strL "", strL "<!-- TEMPLATE (do not remove)", strL "## [ ] <title>",
       strL "**Created:** <date>", strL "**Context:** <optional workspace or PR context>",
       strL "", strL "<description of what needs to be done>", strL "", strL "### Notes",
       strL "- <date>: <update>", strL "", strL "---", strL "-->", strL ""]
      15 false none = [] := by decide
  rw [htail]

theorem parse_todos_addedLines {t d : Line} (ht0 : ¬ t = []) (hts : pyStripL t = t)
    (htc1 : hasSubstrL (strL "<!--") t = false)
    (htc2 : hasSubstrL (strL "-->") t = false)
    (hd : dateLike d = true) :
    parse_todos (addedLines d t) =
      [{ slug := slugify t, title := t, done := false, line_start := 6, line_end := 13,
         created := some d, completed := none, context := none,
         raw_content := joinLines [strL "## [ ] " ++ t, strL "**Created:** " ++ d,
           strL "", strL "", strL "### Notes", strL "- " ++ d ++ strL ": Created",
           strL ""] }] := by
  obtain ⟨hdgt, hdlt, hdstar, hdhash, hdws, hdne⟩ := dateLike_facts hd
  unfold parse_todos
  rw [parse_addedLines ht0 hts htc1 htc2 hd]
  simp only [List.map_cons, List.map_nil]
  have hmeta : extractMeta (List.take (13 - 6) (List.drop 6 (addedLines d t)))
      = (some d, none, none) := by
    show extractMeta [strL "## [ ] " ++ t, strL "**Created:** " ++ d, strL "", strL "",
      strL "### Notes", strL "- " ++ d ++ strL ": Created", strL ""] = _
    unfold extractMeta
    rw [List.foldl_cons, @extractStep_skip _ (strL "## [ ] " ++ t) rfl rfl rfl,
      List.foldl_cons, extractStep_created hdws hdstar,
      List.foldl_cons, @extractStep_skip _ (strL "") rfl rfl rfl,
      List.foldl_cons, @extractStep_skip _ (strL "") rfl rfl rfl,
      List.foldl_cons, @extractStep_skip _ (strL "### Notes") rfl rfl rfl,
      List.foldl_cons, @extractStep_skip _ (strL "- " ++ d ++ strL ": Created") rfl rfl rfl,
      List.foldl_cons, @extractStep_skip _ (strL "") rfl rfl rfl,
      List.foldl_nil]
  unfold make_todo_item
  dsimp only
  rw [hmeta]
  rfl

theorem parse_todos_doneLines {t d d2 : Line} (ht0 : ¬ t = []) (hts : pyStripL t = t)
    (htc1 : hasSubstrL (strL "<!--") t = false)
    (htc2 : hasSubstrL (strL "-->") t = false)
    (hd : dateLike d = true) (hd2 : dateLike d2 = true) :
    parse_todos (doneLines d d2 t) =
      [{ slug := slugify t, title := t, done := true, line_start := 6, line_end := 14,
         created := some d, completed := some d2, context := none,
         raw_content := joinLines [strL "## [x] " ++ t, strL "**Created:** " ++ d,
           strL "**Completed:** " ++ d2, strL "", strL "", strL "### Notes",
           strL "- " ++ d ++ strL ": Created", strL ""] }] := by
  obtain ⟨hdgt, hdlt, hdstar, hdhash, hdws, hdne⟩ := dateLike_facts hd
  obtain ⟨hdgt2, hdlt2, hdstar2, hdhash2, hdws2, hdne2⟩ := dateLike_facts hd2
  unfold parse_todos
  rw [parse_doneLines ht0 hts htc1 htc2 hd hd2]
  simp only [List.map_cons, List.map_nil]
  have hmeta : extractMeta (List.take (14 - 6) (List.drop 6 (doneLines d d2 t)))
      = (some d, some d2, none) := by
    show extractMeta [strL "## [x] " ++ t, strL "**Created:** " ++ d,
      strL "**Completed:** " ++ d2, strL "", strL "", strL "### Notes",
      strL "- " ++ d ++ strL ": Created", strL ""] = _
    unfold extractMeta
    rw [List.foldl_cons, @extractStep_skip _ (strL "## [x] " ++ t) rfl rfl rfl,
      List.foldl_cons, extractStep_created hdws hdstar,
      List.foldl_cons, extractStep_completed hdws2 hdstar2,
      List.foldl_cons, @extractStep_skip _ (strL "") rfl rfl rfl,
      List.foldl_cons, @extractStep_skip _ (strL "") rfl rfl rfl,
      List.foldl_cons, @extractStep_skip _ (strL "### Notes") rfl rfl rfl,
      List.foldl_cons, @extractStep_skip _ (strL "- " ++ d ++ strL ": Created") rfl rfl rfl,
      List.foldl_cons, @extractStep_skip _ (strL "") rfl rfl rfl,
      List.foldl_nil]
  unfold make_todo_item
  dsimp only
  rw [hmeta]
  rfl

theorem not_eq_true_of_eq_false {b : Bool} (h : b = false) : ¬ b = true := by simp [h]

/-- C4: starting from the default template, `addTodo(t)` then `markDone` on
the new item's slug yields the item with `done = true` and a completion date,
the `**Completed:**` line being inserted immediately after the section's
`**Created:**` line (the rewritten document is exactly `doneLines`); a second
`markDone` on the same slug is idempotent — it returns the same already-done
item (same slug, title, done flag, creation and completion dates) and leaves
the document untouched, with no duplicate `**Completed:**` line (the only
such line is the one inserted by the first call).  The title is assumed
newline-free (one document line), already stripped, non-empty, and free of
the comment markers and of the header token rewritten by `mark_done`; the
two dates are of `strftime("%Y-%m-%d")` shape. -/
theorem add_then_mark_done_idempotent (t d d2 d3 : Line)
    (ht0 : ¬ t = []) (hts : pyStripL t = t)
    (htc1 : hasSubstrL (strL "<!--") t = false)
    (htc2 : hasSubstrL (strL "-->") t = false)
    (hthdr : hasSubstrL (strL "## [ ]") t = false)
    (_htnl : '\n' ∉ t)
    (hd : dateLike d = true) (hd2 : dateLike d2 = true) :
    (add_todo d defaultTodoLines t none).1 = addedLines d t ∧
    (add_todo d defaultTodoLines t none).2.slug = slugify t ∧
    (∃ i1 : TodoItem,
      mark_done d2 (addedLines d t) (slugify t) = (doneLines d d2 t, some i1) ∧
      i1.done = true ∧ i1.completed = some d2 ∧ i1.slug = slugify t ∧
      i1.title = t ∧ i1.created = some d ∧ i1.context = none) ∧
    (∃ i2 : TodoItem,
      mark_done d3 (doneLines d d2 t) (slugify t) = (doneLines d d2 t, some i2) ∧
      i2.done = true ∧ i2.completed = some d2 ∧ i2.slug = slugify t ∧
      i2.title = t ∧ i2.created = some d ∧ i2.context = none) ∧
    (doneLines d d2 t).filter (fun l => startsWithL (strL "**Completed:**") l)
      = [strL "**Completed:** " ++ d2] := by
  have hget1 : get_todo (addedLines d t) (slugify t) =
      some { slug := slugify t, title := t, done := false, line_start := 6, line_end := 13,
             created := some d, completed := none, context := none,
             raw_content := joinLines [strL "## [ ] " ++ t, strL "**Created:** " ++ d,
               strL "", strL "", strL "### Notes", strL "- " ++ d ++ strL ": Created",
               strL ""] } := by
    unfold get_todo
    rw [parse_todos_addedLines ht0 hts htc1 htc2 hd]
    dsimp only
    rw [List.find?_cons_of_pos _ (by simp)]
  have hget2 : get_todo (doneLines d d2 t) (slugify t) =
      some { slug := slugify t, title := t, done := true, line_start := 6, line_end := 14,
             created := some d, completed := some d2, context := none,
             raw_content := joinLines [strL "## [x] " ++ t, strL "**Created:** " ++ d,
               strL "**Completed:** " ++ d2, strL "", strL "", strL "### Notes",
               strL "- " ++ d ++ strL ": Created", strL ""] } := by
    unfold get_todo
    rw [parse_todos_doneLines ht0 hts htc1 htc2 hd hd2]
    dsimp only
    rw [List.find?_cons_of_pos _ (by simp)]
  refine ⟨rfl, rfl, ?_, ?_, ?_⟩
  · refine ⟨TodoItem.mk (slugify t) t true 6 13 (some d) (some d2) none
      (joinLines [strL "## [ ] " ++ t, strL "**Created:** " ++ d,
        strL "", strL "", strL "### Notes", strL "- " ++ d ++ strL ": Created",
        strL ""]), ?_, rfl, rfl, rfl, rfl, rfl, rfl⟩
    unfold mark_done
    rw [hget1]
    dsimp only
    rw [if_neg (by simp)]
    have hgd : (addedLines d t).getD 6 [] = strL "## [ ] " ++ t := rfl
    rw [hgd, header_replace hthdr]
    have hfind : findIdxFrom (fun l => startsWithL (strL "**Created:**") l)
        ((addedLines d t).set 6 (strL "## [x] " ++ t)) 6
        (min 13 ((addedLines d t).set 6 (strL "## [x] " ++ t)).length) = some 7 := by
      unfold findIdxFrom
      show List.find? _ [6, 7, 8, 9, 10, 11, 12] = some 7
      rw [List.find?_cons_of_neg _ (not_eq_true_of_eq_false rfl),
        List.find?_cons_of_pos _ rfl]
    rw [hfind]
    rfl
  · refine ⟨TodoItem.mk (slugify t) t true 6 14 (some d) (some d2) none
      (joinLines [strL "## [x] " ++ t, strL "**Created:** " ++ d,
        strL "**Completed:** " ++ d2, strL "", strL "", strL "### Notes",
        strL "- " ++ d ++ strL ": Created", strL ""]), ?_, rfl, rfl, rfl, rfl, rfl, rfl⟩
    unfold mark_done
    rw [hget2]
    dsimp only
    rw [if_pos rfl]
  · unfold doneLines
    rw [List.filter_cons_of_neg (not_eq_true_of_eq_false rfl),
      List.filter_cons_of_neg (not_eq_true_of_eq_false rfl),
      List.filter_cons_of_neg (not_eq_true_of_eq_false rfl),
      List.filter_cons_of_neg (not_eq_true_of_eq_false rfl),
      List.filter_cons_of_neg (not_eq_true_of_eq_false rfl),
      List.filter_cons_of_neg (not_eq_true_of_eq_false rfl),
      List.filter_cons_of_neg (not_eq_true_of_eq_false rfl),
      List.filter_cons_of_neg (not_eq_true_of_eq_false rfl),
      List.filter_cons_of_pos rfl,
      List.filter_cons_of_neg (not_eq_true_of_eq_false rfl),
      List.filter_cons_of_neg (not_eq_true_of_eq_false rfl),
      List.filter_cons_of_neg (not_eq_true_of_eq_false rfl),
      List.filter_cons_of_neg (not_eq_true_of_eq_false rfl),
      List.filter_cons_of_neg (not_eq_true_of_eq_false rfl),
      List.filter_cons_of_neg (not_eq_true_of_eq_false rfl),
      List.filter_cons_of_neg (not_eq_true_of_eq_false rfl),
      List.filter_cons_of_neg (not_eq_true_of_eq_false rfl),
      List.filter_cons_of_neg (not_eq_true_of_eq_false rfl),
      List.filter_cons_of_neg (not_eq_true_of_eq_false rfl),
      List.filter_cons_of_neg (not_eq_true_of_eq_false rfl),
      List.filter_cons_of_neg (not_eq_true_of_eq_false rfl),
      List.filter_cons_of_neg (not_eq_true_of_eq_false rfl),
      List.filter_cons_of_neg (not_eq_true_of_eq_false rfl),
      List.filter_cons_of_neg (not_eq_true_of_eq_false rfl),
      List.filter_cons_of_neg (not_eq_true_of_eq_false rfl),
      List.filter_cons_of_neg (not_eq_true_of_eq_false rfl),
      List.filter_cons_of_neg (not_eq_true_of_eq_false rfl),
      List.filter_cons_of_neg (not_eq_true_of_eq_false rfl),
      List.filter_cons_of_neg (not_eq_true_of_eq_false rfl),
      List.filter_cons_of_neg (not_eq_true_of_eq_false rfl),
      List.filter_nil]

/-- Witness for C4 at the title `"Check license"` and concrete dates. -/
theorem add_then_mark_done_idempotent_witness :
    (¬ strL "Check license" = [] ∧
     pyStripL (strL "Check license") = strL "Check license" ∧
     hasSubstrL (strL "<!--") (strL "Check license") = false ∧
     hasSubstrL (strL "-->") (strL "Check license") = false ∧
     hasSubstrL (strL "## [ ]") (strL "Check license") = false ∧
     '\n' ∉ strL "Check license" ∧
     dateLike (strL "2026-10-11") = true ∧ dateLike (strL "2026-10-12") = true) ∧
    ((add_todo (strL "2026-10-11") defaultTodoLines (strL "Check license") none).1
        = addedLines (strL "2026-10-11") (strL "Check license") ∧
     (add_todo (strL "2026-10-11") defaultTodoLines (strL "Check license") none).2.slug
        = slugify (strL "Check license") ∧
     (∃ i1 : TodoItem,
       mark_done (strL "2026-10-12") (addedLines (strL "2026-10-11") (strL "Check license"))
           (slugify (strL "Check license"))
         = (doneLines (strL "2026-10-11") (strL "2026-10-12") (strL "Check license"),
            some i1) ∧
       i1.done = true ∧ i1.completed = some (strL "2026-10-12") ∧
       i1.slug = slugify (strL "Check license") ∧ i1.title = strL "Check license" ∧
       i1.created = some (strL "2026-10-11") ∧ i1.context = none) ∧
     (∃ i2 : TodoItem,
       mark_done (strL "2026-10-13")
           (doneLines (strL "2026-10-11") (strL "2026-10-12") (strL "Check license"))
           (slugify (strL "Check license"))
         = (doneLines (strL "2026-10-11") (strL "2026-10-12") (strL "Check license"),
            some i2) ∧
       i2.done = true ∧ i2.completed = some (strL "2026-10-12") ∧
       i2.slug = slugify (strL "Check license") ∧ i2.title = strL "Check license" ∧
       i2.created = some (strL "2026-10-11") ∧ i2.context = none) ∧
     (doneLines (strL "2026-10-11") (strL "2026-10-12") (strL "Check license")).filter
         (fun l => startsWithL (strL "**Completed:**") l)
       = [strL "**Completed:** " ++ strL "2026-10-12"]) :=
  ⟨⟨by decide, by decide, by decide, by decide, by decide, by decide, by decide, by decide⟩,
   add_then_mark_done_idempotent (strL "Check license") (strL "2026-10-11")
     (strL "2026-10-12") (strL "2026-10-13") (by decide) (by decide) (by decide)
     (by decide) (by decide) (by decide) (by decide) (by decide)⟩

/-! ## WorklogStore: `read_entries` (C5, C6)

Embedding of `read_entries` from `src/rhdh_plugin/worklog.py` (lines 53-102)
and (identically) `src/skills/rhdh/rhdh/worklog.py` (lines 65-115).  The
backing file is modelled as the list of its non-blank lines, each given as
the result of `json.loads` on that line: `none` for a line that fails to
parse (`json.JSONDecodeError`), `some v` for a parsed value.  (A blank line
is skipped before parsing; a skip is also what `json.loads("")` failing
produces, so blank lines are absorbed into the `none` case.)
`datetime.fromisoformat` is modelled for the ISO-8601 subset
`YYYY-MM-DD[THH:MM[:SS[.ffffff]][±HH:MM]]` (any other shape raises
`ValueError`, i.e. yields `none`); a parsed timestamp is a pair of its value
in microseconds since the civil epoch and its awareness flag (`true` when a
UTC offset is present) — Python refuses to compare naive with aware
datetimes (`TypeError`). -/

/-- Python exceptions relevant to `read_entries`.  The `except` clause
catches only `json.JSONDecodeError` and `KeyError`; everything else
propagates and aborts the read. -/
inductive PyExn where
  | valueError
  | typeError
  | attributeError
deriving Repr, DecidableEq

def parse2dig : Line → Option (Nat × Line)
  | a :: b :: rest =>
    if a.isDigit && b.isDigit then
      some ((a.toNat - 48) * 10 + (b.toNat - 48), rest)
    else none
  | _ => none

def parse4dig (l : Line) : Option (Nat × Line) := do
  let (hi, r1) ← parse2dig l
  let (lo, r2) ← parse2dig r1
  pure (hi * 100 + lo, r2)

def expectChar (c : Char) : Line → Option Line
  | x :: rest => if x = c then some rest else none
  | [] => none

def isLeapYear (y : Nat) : Bool := y % 4 = 0 && (y % 100 ≠ 0 || y % 400 = 0)

def daysInMonth (y m : Nat) : Nat :=
  if m = 2 then (if isLeapYear y then 29 else 28)
  else if m = 4 || m = 6 || m = 9 || m = 11 then 30
  else 31

/-- Days from 1970-01-01 of a proleptic-Gregorian civil date. -/
def daysFromCivil (y m d : Nat) : Int :=
  let yi : Int := if m ≤ 2 then (y : Int) - 1 else (y : Int)
  let era : Int := (if 0 ≤ yi then yi else yi - 399) / 400
  let yoe : Int := yi - era * 400
  let mp : Nat := (m + 9) % 12
  let doy : Int := ((153 * mp + 2) / 5 + d - 1 : Nat)
  let doe : Int := yoe * 365 + yoe / 4 - yoe / 100 + doy
  era * 146097 + doe - 719468

/-- Fractional-second digits (1 to 6), scaled to microseconds. -/
def parseFrac : Line → Option (Nat × Line) := fun l =>
  let digs := l.takeWhile (fun c => c.isDigit)
  let rest := l.dropWhile (fun c => c.isDigit)
  if digs.length = 0 || digs.length > 6 then none
  else
    let v := digs.foldl (fun acc c => acc * 10 + (c.toNat - 48)) 0
    some (v * 10 ^ (6 - digs.length), rest)

def parseOffset (l : Line) : Option Int := do
  let (oh, r1) ← parse2dig l
  let r2 ← expectChar ':' r1
  let (om, r3) ← parse2dig r2
  if r3 = [] ∧ oh ≤ 23 ∧ om ≤ 59 then pure ((oh * 3600 + om * 60 : Nat) : Int) else none

/-- After the seconds (and optional fraction): nothing (naive), or a UTC
offset (aware). -/
def finishTs (base : Int) : Line → Option (Int × Bool)
  | [] => some (base, false)
  | '+' :: r => do
    let off ← parseOffset r
    pure (base - off * 1000000, true)
  | '-' :: r => do
    let off ← parseOffset r
    pure (base + off * 1000000, true)
  | _ => none

/-- Model of `datetime.fromisoformat` on the subset used here: value in
microseconds paired with the awareness flag; `none` models `ValueError`. -/
def fromisoformat (l : Line) : Option (Int × Bool) := do
  let (y, r1) ← parse4dig l
  let r2 ← expectChar '-' r1
  let (mo, r3) ← parse2dig r2
  let r4 ← expectChar '-' r3
  let (da, r5) ← parse2dig r4
  if y = 0 ∨ mo = 0 ∨ mo > 12 ∨ da = 0 ∨ da > daysInMonth y mo then none
  else
    let dayUs : Int := daysFromCivil y mo da * 86400000000
    match r5 with
    | [] => some (dayUs, false)
    | 'T' :: r6 => do
      let (hh, r7) ← parse2dig r6
      let r8 ← expectChar ':' r7
      let (mi, r9) ← parse2dig r8
      if hh > 23 ∨ mi > 59 then none
      else
        let hmUs : Int := dayUs + ((hh * 3600 + mi * 60 : Nat) : Int) * 1000000
        match r9 with
        | ':' :: r10 => do
          let (ss, r11) ← parse2dig r10
          if ss > 59 then none
          else
            let sUs : Int := hmUs + ((ss : Nat) : Int) * 1000000
            match r11 with
            | '.' :: r12 => do
              let (frac, r13) ← parseFrac r12
              finishTs (sUs + frac) r13
            | r11' => finishTs sUs r11'
        | r9' => finishTs hmUs r9'
    | _ => none

example : (fromisoformat (strL "2025-01-01")).isSome = true := by decide
example : fromisoformat (strL "garbage") = none := by decide
example : (fromisoformat (strL "2025-06-01T12:30:05.123456+02:00")).isSome = true := by decide
example : fromisoformat (strL "2025-02-30") = none := by decide
example :
    fromisoformat (strL "2025-03-01T01:00:00+01:00")
      = fromisoformat (strL "2025-03-01T00:00:00+00:00") := by decide
example :
    (fromisoformat (strL "2025-03-01T00:00:00+00:00")).map Prod.snd = some true ∧
    (fromisoformat (strL "2025-03-01T00:00:00")).map Prod.snd = some false := by decide

/-- The `since` preprocessing of `read_entries` (worklog.py lines 70-79):
falsy `since` leaves the filter off; a string containing `"T"` is parsed
after `replace("Z", "+00:00")`, a bare date gets `"T00:00:00+00:00"`
appended; an unparseable string is silently ignored (filter off). -/
def parse_since : Option Line → Option (Int × Bool)
  | none => none
  | some s =>
    if s = [] then none
    else if hasSubstrL (strL "T") s then
      fromisoformat (replaceAllL (strL "Z") (strL "+00:00") s)
    else
      fromisoformat (s ++ strL "T00:00:00+00:00")

/-- Python `entry_ts < since_dt` after
`entry_ts = datetime.fromisoformat(entry["ts"].replace("Z", "+00:00"))`:
`KeyError` when the object lacks `"ts"` (caught by the caller),
`TypeError` when the entry is not a dict or when naive and aware datetimes
are compared, `AttributeError` when `"ts"` is not a string, `ValueError`
when it is unparseable (all three uncaught). -/
inductive TsOutcome where
  | lt (b : Bool)
  | keyError
  | raised (e : PyExn)

def entryBeforeSince (sd : Int × Bool) : JSON → TsOutcome
  | JSON.obj fields =>
    match lookupKey fields "ts" with
    | none => TsOutcome.keyError
    | some (JSON.str s) =>
      match fromisoformat (replaceAllL (strL "Z") (strL "+00:00") s.data) with
      | none => TsOutcome.raised PyExn.valueError
      | some (v, aware) =>
        if aware = sd.2 then TsOutcome.lt (decide (v < sd.1))
        else TsOutcome.raised PyExn.typeError
    | some _ => TsOutcome.raised PyExn.attributeError
  | _ => TsOutcome.raised PyExn.typeError

/-- The line loop of `read_entries` (worklog.py lines 81-94), producing the
kept entries in on-disk order or the uncaught exception that aborts the
read.  A `none` line models a `json.JSONDecodeError` (caught: `continue`);
with a `since` filter, `KeyError` from a missing `"ts"` is caught
(`continue`), entries strictly before the instant are skipped, and any other
exception propagates. -/
def readLoop (since_dt : Option (Int × Bool)) : List (Option JSON) → Except PyExn (List JSON)
  | [] => Except.ok []
  | line :: rest =>
    match line with
    | none => readLoop since_dt rest
    | some entry =>
      match since_dt with
      | none => (readLoop since_dt rest).map (entry :: ·)
      | some sd =>
        match entryBeforeSince sd entry with
        | TsOutcome.lt true => readLoop since_dt rest
        | TsOutcome.lt false => (readLoop since_dt rest).map (entry :: ·)
        | TsOutcome.keyError => readLoop since_dt rest
        | TsOutcome.raised e => Except.error e

/-- Python `entries[:k]` for an `int` `k` (negative slice ends drop from the
tail). -/
def pyTake (l : List JSON) (k : Int) : List JSON :=
  if 0 ≤ k then l.take k.toNat else l.take (l.length - (-k).toNat)

/-- Python `if limit: entries = entries[:limit]`: a falsy limit (absent or
zero) leaves the list whole. -/
def pyLimit (limit : Option Int) (l : List JSON) : List JSON :=
  match limit with
  | none => l
  | some k => if k ≠ 0 then pyTake l k else l

/-- Embedding of `read_entries(limit, since)` on the decoded file lines:
builds the entry list in on-disk order (skipping what the loop skips,
aborting on what it raises), reverses it for most-recent-first, then applies
the truthy limit. -/
def read_entries (lines : List (Option JSON)) (limit : Option Int) (since : Option Line) :
    Except PyExn (List JSON) :=
  let since_dt := parse_since since
  match readLoop since_dt lines with
  | Except.error e => Except.error e
  | Except.ok entries => Except.ok (pyLimit limit entries.reverse)

example :
    read_entries
      [some (JSON.obj [("ts", JSON.str "2025-01-01T00:00:00+00:00"), ("msg", JSON.str "Old")]),
       some (JSON.obj [("ts", JSON.str "2025-06-01T00:00:00+00:00"), ("msg", JSON.str "New")])]
      none (some (strL "2025-03-01"))
      = Except.ok [JSON.obj [("ts", JSON.str "2025-06-01T00:00:00+00:00"), ("msg", JSON.str "New")]] := by
  rfl

/-- C5 counterexample: (i) a valid-JSON line that lacks a `msg` field is
returned, not skipped (no `msg` check exists in `read_entries`); (ii) with a
`since` filter, a line whose `ts` is present but unparseable raises
`ValueError`, which the `except (json.JSONDecodeError, KeyError)` clause
does not catch — the whole read aborts and the remaining well-formed line is
not returned. -/
theorem read_entries_tolerance_counterexample :
    read_entries
        [some (JSON.obj [("ts", JSON.str "2024-01-01T00:00:00+00:00"), ("note", JSON.str "x")])]
        none none
      = Except.ok [JSON.obj [("ts", JSON.str "2024-01-01T00:00:00+00:00"), ("note", JSON.str "x")]] ∧
    read_entries
        [some (JSON.obj [("ts", JSON.str "garbage"), ("msg", JSON.str "hello")]),
         some (JSON.obj [("ts", JSON.str "2024-01-02T00:00:00+00:00"), ("msg", JSON.str "world")])]
        none (some (strL "2024-01-01"))
      = Except.error PyExn.valueError :=
  ⟨rfl, rfl⟩

theorem readLoop_none_eq (lines : List (Option JSON)) :
    readLoop none lines = Except.ok (lines.filterMap id) := by
  induction lines with
  | nil => rfl
  | cons l rest ih =>
    cases l with
    | none => simpa [readLoop, List.filterMap_cons] using ih
    | some e => simp [readLoop, List.filterMap_cons, ih, Except.map]

/-- C5 amended: `read_entries` skips exactly the lines that fail to parse as
JSON (plus, when a `since` filter is active, object entries lacking a `ts`
field, via the caught `KeyError`); a line that fails JSON parsing never
prevents the remaining lines from being returned; but a line lacking `msg`
is *kept*, and (per the counterexample) an unparseable `ts` under an active
`since` filter aborts the read instead of being skipped. -/
theorem read_entries_skip_semantics :
    (∀ (rest : List (Option JSON)) (limit : Option Int) (since : Option Line),
      read_entries (none :: rest) limit since = read_entries rest limit since) ∧
    (∀ (lines : List (Option JSON)) (limit : Option Int),
      read_entries lines limit none
        = Except.ok (pyLimit limit (lines.filterMap id).reverse)) ∧
    (∀ (rest : List (Option JSON)) (limit : Option Int) (s : Line)
       (f : List (String × JSON)),
      (parse_since (some s)).isSome = true → lookupKey f "ts" = none →
      read_entries (some (JSON.obj f) :: rest) limit (some s)
        = read_entries rest limit (some s)) := by
  refine ⟨?_, ?_, ?_⟩
  · intro rest limit since
    unfold read_entries
    rcases parse_since since with _ | sd <;> rfl
  · intro lines limit
    unfold read_entries
    show (match readLoop none lines with
          | Except.error e => Except.error e
          | Except.ok entries => Except.ok (pyLimit limit entries.reverse))
        = Except.ok (pyLimit limit (List.filterMap id lines).reverse)
    rw [readLoop_none_eq]
  · intro rest limit s f hsome hts
    obtain ⟨sd, hsd⟩ := Option.isSome_iff_exists.mp hsome
    unfold read_entries
    rw [hsd]
    have hebs : entryBeforeSince sd (JSON.obj f) = TsOutcome.keyError := by
      simp only [entryBeforeSince, hts]
    have hstep : readLoop (some sd) (some (JSON.obj f) :: rest) = readLoop (some sd) rest := by
      rw [readLoop]
      rw [hebs]
    simp only [hstep]

/-- Witness for C5 (amended) at concrete inputs: a malformed line in front
of a one-entry file, a `msg`-less JSON line with a limit, and a `ts`-less
object under an active `since` filter. -/
theorem read_entries_skip_semantics_witness :
    read_entries [none, some (JSON.obj [("msg", JSON.str "a")])] none none
      = read_entries [some (JSON.obj [("msg", JSON.str "a")])] none none ∧
    read_entries [some (JSON.obj [("note", JSON.str "b")])] (some 1) none
      = Except.ok (pyLimit (some 1)
          (([some (JSON.obj [("note", JSON.str "b")])].filterMap id).reverse)) ∧
    ((parse_since (some (strL "2024-01-01"))).isSome = true ∧
     lookupKey [("msg", JSON.str "c")] "ts" = none ∧
     read_entries
        [some (JSON.obj [("msg", JSON.str "c")]),
         some (JSON.obj [("ts", JSON.str "2024-01-02T00:00:00+00:00"), ("msg", JSON.str "d")])]
        none (some (strL "2024-01-01"))
      = read_entries
          [some (JSON.obj [("ts", JSON.str "2024-01-02T00:00:00+00:00"), ("msg", JSON.str "d")])]
          none (some (strL "2024-01-01"))) :=
  ⟨read_entries_skip_semantics.1 _ _ _,
   read_entries_skip_semantics.2.1 _ _,
   by decide,
   rfl,
   read_entries_skip_semantics.2.2 _ _ _ _ (by decide) rfl⟩

/-- C6 counterexample: Python's `if limit:` treats `limit = 0` as falsy, so
`read_entries(limit=0)` returns every entry instead of the zero most recent
ones — "limit=k truncates the result after reversal, returning the k most
recently appended entries" fails at k = 0. -/
theorem read_entries_limit_zero_counterexample :
    read_entries
        [some (JSON.obj [("ts", JSON.str "2025-01-01T00:00:00+00:00"), ("msg", JSON.str "Old")]),
         some (JSON.obj [("ts", JSON.str "2025-06-01T00:00:00+00:00"), ("msg", JSON.str "New")])]
        (some 0) none
      = Except.ok
          [JSON.obj [("ts", JSON.str "2025-06-01T00:00:00+00:00"), ("msg", JSON.str "New")],
           JSON.obj [("ts", JSON.str "2025-01-01T00:00:00+00:00"), ("msg", JSON.str "Old")]] ∧
    ([JSON.obj [("ts", JSON.str "2025-06-01T00:00:00+00:00"), ("msg", JSON.str "New")],
      JSON.obj [("ts", JSON.str "2025-01-01T00:00:00+00:00"), ("msg", JSON.str "Old")]]
        : List JSON).length ≠ 0 :=
  ⟨rfl, by decide⟩

/-- A decoded worklog line never makes the loop raise under the filter
`sdo`: malformed lines and, with a filter, `ts`-less objects are caught, so
only the raising `entryBeforeSince` outcomes are excluded. -/
def lineOk (sdo : Option (Int × Bool)) : Option JSON → Bool
  | none => true
  | some e =>
    match sdo with
    | none => true
    | some sd =>
      match entryBeforeSince sd e with
      | TsOutcome.raised _ => false
      | _ => true

/-- What the loop keeps from one decoded line under the filter `sdo`:
nothing from a malformed line, the entry itself when no filter is active or
when it is not strictly before the instant, nothing otherwise. -/
def keepLine (sdo : Option (Int × Bool)) : Option JSON → Option JSON
  | none => none
  | some e =>
    match sdo with
    | none => some e
    | some sd =>
      match entryBeforeSince sd e with
      | TsOutcome.lt false => some e
      | _ => none

theorem readLoop_eq_filterMap (sdo : Option (Int × Bool)) (lines : List (Option JSON))
    (h : lines.all (lineOk sdo) = true) :
    readLoop sdo lines = Except.ok (lines.filterMap (keepLine sdo)) := by
  induction lines with
  | nil => rfl
  | cons l rest ih =>
    rw [List.all_cons, Bool.and_eq_true] at h
    have hrest := ih h.2
    cases l with
    | none =>
      simpa [readLoop, List.filterMap_cons, keepLine] using hrest
    | some e =>
      cases sdo with
      | none =>
        simp [readLoop, List.filterMap_cons, keepLine, hrest, Except.map]
      | some sd =>
        cases hout : entryBeforeSince sd e with
        | lt b =>
          cases b with
          | false =>
            simp [readLoop, List.filterMap_cons, keepLine, hout, hrest, Except.map]
          | true =>
            simp [readLoop, List.filterMap_cons, keepLine, hout, hrest]
        | keyError =>
          simp [readLoop, List.filterMap_cons, keepLine, hout, hrest]
        | raised ex =>
          exfalso
          have h1 := h.1
          simp [lineOk, hout] at h1

theorem pyLimit_pos (k : Int) (hk : 1 ≤ k) (l : List JSON) :
    pyLimit (some k) l = l.take k.toNat := by
  have hk0 : k ≠ 0 := by omega
  have hk1 : (0:Int) ≤ k := by omega
  simp [pyLimit, pyTake, hk0, hk1]

/-- C6 amended: when every decoded line is one the loop can handle (it
parses as JSON, and under an active `since` filter its `ts` is absent or a
parseable timestamp of matching awareness), `read_entries` returns the kept
entries in reverse of on-disk order with the truthy limit applied after
reversal; an entry with a `ts` equal to the `since` instant is kept and one
strictly before it is excluded; and for `limit = k ≥ 1` without a filter the
result is the k most recently appended entries, newest first.  (For
`limit = 0` the claim fails: see the counterexample.) -/
theorem read_entries_order_filter_limit :
    (∀ (lines : List (Option JSON)) (limit : Option Int) (s : Line),
      (parse_since (some s)).isSome = true →
      lines.all (lineOk (parse_since (some s))) = true →
      read_entries lines limit (some s)
        = Except.ok (pyLimit limit
            (List.filterMap (keepLine (parse_since (some s))) lines).reverse)) ∧
    (∀ (sd : Int × Bool) (f : List (String × JSON)) (ts : String) (v : Int),
      lookupKey f "ts" = some (JSON.str ts) →
      fromisoformat (replaceAllL (strL "Z") (strL "+00:00") ts.data) = some (v, sd.2) →
      keepLine (some sd) (some (JSON.obj f))
        = if v < sd.1 then none else some (JSON.obj f)) ∧
    (∀ (lines : List (Option JSON)) (k : Int),
      1 ≤ k →
      read_entries lines (some k) none
        = Except.ok ((List.filterMap id lines).reverse.take k.toNat)) := by
  refine ⟨?_, ?_, ?_⟩
  · intro lines limit s hsome hok
    obtain ⟨sd, hsd⟩ := Option.isSome_iff_exists.mp hsome
    rw [hsd] at hok
    unfold read_entries
    rw [hsd]
    simp only [readLoop_eq_filterMap (some sd) lines hok]
  · intro sd f ts v hts hiso
    have hebs : entryBeforeSince sd (JSON.obj f) = TsOutcome.lt (decide (v < sd.1)) := by
      simp only [entryBeforeSince, hts, hiso, if_pos rfl, if_true]
    by_cases hv : v < sd.1
    · rw [if_pos hv]
      simp [keepLine, hebs, hv]
    · rw [if_neg hv]
      simp [keepLine, hebs, hv]
  · intro lines k hk
    unfold read_entries
    show (match readLoop none lines with
          | Except.error e => Except.error e
          | Except.ok entries => Except.ok (pyLimit (some k) entries.reverse))
        = Except.ok ((List.filterMap id lines).reverse.take k.toNat)
    rw [readLoop_none_eq]
    show Except.ok (pyLimit (some k) (List.filterMap id lines).reverse) = _
    rw [pyLimit_pos k hk]

/-- Witness for C6 (amended) at concrete inputs: the repo's own two-entry
`since` scenario (old entry excluded, new kept, newest first), an entry
whose `ts` equals the `since` instant (kept, not excluded), and
`limit = 1` on a two-entry file (the single most recent entry). -/
theorem read_entries_order_filter_limit_witness :
    ((parse_since (some (strL "2025-03-01"))).isSome = true ∧
     ([some (JSON.obj [("ts", JSON.str "2025-01-01T00:00:00+00:00"), ("msg", JSON.str "Old")]),
       some (JSON.obj [("ts", JSON.str "2025-06-01T00:00:00+00:00"), ("msg", JSON.str "New")])].all
        (lineOk (parse_since (some (strL "2025-03-01"))))) = true ∧
     read_entries
        [some (JSON.obj [("ts", JSON.str "2025-01-01T00:00:00+00:00"), ("msg", JSON.str "Old")]),
         some (JSON.obj [("ts", JSON.str "2025-06-01T00:00:00+00:00"), ("msg", JSON.str "New")])]
        none (some (strL "2025-03-01"))
       = Except.ok (pyLimit none
           (List.filterMap (keepLine (parse_since (some (strL "2025-03-01"))))
             [some (JSON.obj [("ts", JSON.str "2025-01-01T00:00:00+00:00"), ("msg", JSON.str "Old")]),
              some (JSON.obj [("ts", JSON.str "2025-06-01T00:00:00+00:00"), ("msg", JSON.str "New")])]).reverse)) ∧
    (lookupKey [("ts", JSON.str "2025-03-01T00:00:00+00:00"), ("msg", JSON.str "Eq")] "ts"
        = some (JSON.str "2025-03-01T00:00:00+00:00") ∧
     fromisoformat (replaceAllL (strL "Z") (strL "+00:00") (strL "2025-03-01T00:00:00+00:00"))
        = some ((1740787200000000 : Int), true) ∧
     keepLine (some ((1740787200000000 : Int), true))
        (some (JSON.obj [("ts", JSON.str "2025-03-01T00:00:00+00:00"), ("msg", JSON.str "Eq")]))
        = if (1740787200000000 : Int) < (1740787200000000 : Int) then none
          else some (JSON.obj [("ts", JSON.str "2025-03-01T00:00:00+00:00"), ("msg", JSON.str "Eq")])) ∧
    ((1 : Int) ≤ 1 ∧
     read_entries
        [some (JSON.obj [("msg", JSON.str "First")]),
         some (JSON.obj [("msg", JSON.str "Second")])]
        (some 1) none
       = Except.ok ((List.filterMap id
           [some (JSON.obj [("msg", JSON.str "First")]),
            some (JSON.obj [("msg", JSON.str "Second")])]).reverse.take (1 : Int).toNat)) :=
  ⟨⟨by decide, by decide,
    read_entries_order_filter_limit.1 _ none _ (by decide) (by decide)⟩,
   ⟨rfl, by decide,
    read_entries_order_filter_limit.2.1 ((1740787200000000 : Int), true) _ _ _ rfl (by decide)⟩,
   ⟨by decide,
    read_entries_order_filter_limit.2.2 _ 1 (by decide)⟩⟩

/-- JSON whitespace (config.py uses `json.loads`). -/
def isWsJ (c : Char) : Bool := c = ' ' || c = '\t' || c = '\n' || c = '\r'

def skipWs (l : Line) : Line := l.dropWhile isWsJ

/-- String body after the opening quote, with the basic escapes; `\u`
escapes are outside the modeled subset (parse failure). -/
def parseStrBody : Line → Option (Line × Line)
  | [] => none
  | '"' :: r => some ([], r)
  | '\\' :: e :: r =>
    (match e with
     | '"' => some '"'
     | '\\' => some '\\'
     | '/' => some '/'
     | 'n' => some '\n'
     | 't' => some '\t'
     | 'r' => some '\r'
     | 'b' => some '\x08'
     | 'f' => some '\x0C'
     | _ => none).bind (fun c => (parseStrBody r).map (fun (p : Line × Line) => (c :: p.1, p.2)))
  | c :: r => (parseStrBody r).map (fun (p : Line × Line) => (c :: p.1, p.2))

def digitsToNat (l : Line) : Nat := l.foldl (fun a c => a * 10 + (c.toNat - 48)) 0

/-- A JSON integer (optionally negative, no leading zeros); a fraction or
exponent would make it a float, which is outside the modeled subset (parse
failure, so `parse_value` falls back to the raw string). -/
def parseNum (l : Line) : Option (JSON × Line) :=
  let (neg, l1) := match l with
    | '-' :: r => (true, r)
    | _ => (false, l)
  let digs := l1.takeWhile Char.isDigit
  let rest := l1.dropWhile Char.isDigit
  if digs = [] then none
  else match rest with
    | '.' :: _ => none
    | 'e' :: _ => none
    | 'E' :: _ => none
    | _ =>
      if 1 < digs.length ∧ digs.head? = some '0' then none
      else some (JSON.num (if neg then -(digitsToNat digs : Int) else (digitsToNat digs : Int)), rest)

mutual
/-- Fueled recursive-descent parser for the modeled `json.loads` subset
(null, booleans, integers, strings with basic escapes, arrays, objects). -/
def parseJ : Nat → Line → Option (JSON × Line)
  | 0, _ => none
  | fuel + 1, l =>
    match skipWs l with
    | 'n' :: 'u' :: 'l' :: 'l' :: r => some (JSON.null, r)
    | 't' :: 'r' :: 'u' :: 'e' :: r => some (JSON.bool true, r)
    | 'f' :: 'a' :: 'l' :: 's' :: 'e' :: r => some (JSON.bool false, r)
    | '"' :: r => (parseStrBody r).map (fun p => (JSON.str (String.mk p.1), p.2))
    | '[' :: r =>
      (match skipWs r with
       | ']' :: r2 => some (JSON.arr [], r2)
       | _ => (parseElems fuel (skipWs r)).map (fun p => (JSON.arr p.1, p.2)))
    | '\x7b' :: r =>
      (match skipWs r with
       | '\x7d' :: r2 => some (JSON.obj [], r2)
       | _ => (parseMembers fuel (skipWs r)).map (fun p => (JSON.obj p.1, p.2)))
    | l2 => parseNum l2

/-- Comma-separated array elements up to the closing bracket. -/
def parseElems : Nat → Line → Option (List JSON × Line)
  | 0, _ => none
  | fuel + 1, l => do
    let (v, r) ← parseJ fuel l
    match skipWs r with
    | ',' :: r2 => (parseElems fuel r2).map (fun p => (v :: p.1, p.2))
    | ']' :: r2 => some ([v], r2)
    | _ => none

/-- Comma-separated `"key": value` members up to the closing brace. -/
def parseMembers : Nat → Line → Option (List (String × JSON) × Line)
  | 0, _ => none
  | fuel + 1, l =>
    match skipWs l with
    | '"' :: r => do
      let (ks, r1) ← parseStrBody r
      match skipWs r1 with
      | ':' :: r2 => do
        let (v, r3) ← parseJ fuel r2
        match skipWs r3 with
        | ',' :: r4 => (parseMembers fuel r4).map (fun p => ((String.mk ks, v) :: p.1, p.2))
        | '\x7d' :: r4 => some ([(String.mk ks, v)], r4)
        | _ => none
      | _ => none
    | _ => none
end

/-- `json.loads` on the modeled subset: one value, whole input consumed
(modulo whitespace); `none` models `json.JSONDecodeError`. -/
def json_loads (s : String) : Option JSON :=
  match parseJ (2 * s.data.length + 4) s.data with
  | some (j, r) => if skipWs r = [] then some j else none
  | none => none

/-- `parse_value` (config.py lines 182-195): JSON if it parses, otherwise
the raw string. -/
def parse_value (v : String) : JSON :=
  match json_loads v with
  | some j => j
  | none => JSON.str v

example : parse_value "/tmp/x" = JSON.str "/tmp/x" := rfl
example : parse_value "true" = JSON.bool true := rfl
example : parse_value "[1, 2]" = JSON.arr [JSON.num 1, JSON.num 2] := rfl
example : parse_value "\x7b\"a\": null\x7d" = JSON.obj [("a", JSON.null)] := rfl
example : parse_value "01" = JSON.str "01" := rfl

/-- Python `key.split(".")`. -/
def splitDotAux (acc : Line) : Line → List String
  | [] => [String.mk acc.reverse]
  | '.' :: r => String.mk acc.reverse :: splitDotAux [] r
  | c :: r => splitDotAux (c :: acc) r

def splitDot (s : String) : List String := splitDotAux [] s.data

example : splitDot "repos.overlay" = ["repos", "overlay"] := by decide

/-- `set_nested` (config.py lines 136-157): walk the dot-notation path,
creating (or replacing a non-dict value with) an empty dict at every
intermediate part, then bind the final part. -/
def set_nested : List (String × JSON) → List String → JSON → List (String × JSON)
  | data, [], _ => data
  | data, [p], v => setKey data p v
  | data, p :: q :: rest, v =>
    let sub := match lookupKey data p with
      | some (JSON.obj m) => m
      | _ => []
    setKey data p (JSON.obj (set_nested sub (q :: rest) v))

/-- `get_nested` (config.py lines 111-134): walk the dot-notation path;
`none` models the `KeyError`. -/
def get_nested : JSON → List String → Option JSON
  | j, [] => some j
  | JSON.obj m, p :: rest =>
    (match lookupKey m p with
     | some v => get_nested v rest
     | none => none)
  | _, _ :: _ => none

/-- The shorthand map of `_config_set` (config.py line 540). -/
def key_map (k : String) : String :=
  if k = "overlay" then "repos.overlay"
  else if k = "local" then "repos.local"
  else if k = "factory" then "repos.factory"
  else k

/-- The observable outcome of `_config_set`: the error message and
suggestions of a failing call, or the returned data fields together with
the document handed to `save_config` (the persisted configuration). -/
inductive ConfigSetOut where
  | err (msg : String) (suggestions : List String)
  | okOut (key : String) (value : JSON) (scope : String)
      (saved : List (String × JSON)) (suggestions : List String)
  deriving Repr

/-- `_config_set` (config.py lines 528-566) over the loaded config of the
selected scope; `saveOk` is the result of `save_config`.  No step consults
the filesystem about the value: there is no existence check. -/
def _config_set (key : Option String) (value : Option String) (global_ : Bool)
    (config : List (String × JSON)) (saveOk : Bool) : ConfigSetOut :=
  match key with
  | none => ConfigSetOut.err "Key is required for 'config set'" []
  | some k =>
    if k = "" then ConfigSetOut.err "Key is required for 'config set'" []
    else
      match value with
      | none => ConfigSetOut.err "Value is required for 'config set'" []
      | some v =>
        let k2 := key_map k
        let scope := if global_ then "user" else "project"
        let parsed := parse_value v
        let newConfig := set_nested config (splitDot k2) parsed
        if saveOk then ConfigSetOut.okOut k2 parsed scope newConfig ["rhdh config show"]
        else ConfigSetOut.err "Failed to write config" []

/-- C8: `_config_set("overlay", v)` on project scope performs no
path-existence validation: for every loaded project config and every value
string it succeeds, storing the opportunistically JSON-parsed value at
`repos.overlay` in the saved document (where `get_nested` — used at
resolution time — reads it back); in particular `"/tmp/x"` fails JSON
parsing and is stored as the plain string `"/tmp/x"`, existing or not. -/
theorem config_set_overlay_no_validation :
    (∀ (config : List (String × JSON)) (v : String),
      _config_set (some "overlay") (some v) false config true
        = ConfigSetOut.okOut "repos.overlay" (parse_value v) "project"
            (set_nested config ["repos", "overlay"] (parse_value v)) ["rhdh config show"]) ∧
    (∀ (config : List (String × JSON)) (v : String),
      get_nested (JSON.obj (set_nested config ["repos", "overlay"] (parse_value v)))
          ["repos", "overlay"] = some (parse_value v)) ∧
    parse_value "/tmp/x" = JSON.str "/tmp/x" ∧
    _config_set (some "overlay") (some "/tmp/x") false [] true
      = ConfigSetOut.okOut "repos.overlay" (JSON.str "/tmp/x") "project"
          [("repos", JSON.obj [("overlay", JSON.str "/tmp/x")])] ["rhdh config show"] := by
  refine ⟨?_, ?_, rfl, rfl⟩
  · intro config v
    rfl
  · intro config v
    simp only [set_nested, get_nested, lookupKey_setKey_self]
